import Mathlib

/-!
Shallow embedding of the generation-orchestration pipeline of the
asetgenerator repository (src/services/geminiService.ts and
src/components/GeneratorPanel/GeneratorPanel.tsx), with theorems checking
the natural-language specification against it.

Modelling conventions:
* JavaScript numbers used as integers are modelled as `Int`/`Nat`; the
  32-bit truncation of `|= 0` and `<< 5` is made explicit via `toInt32`.
* JavaScript arithmetic on fractional values (aspect ratios, font sizes)
  is modelled exactly over `ℚ`.
* `undefined` string values are `Option.none`; JS falsiness of strings
  (undefined or "") and of numbers (NaN, modelled as `none`, or 0) is
  made explicit by `jsTruthyS` / `jsTruthyN`.
* Asynchronous calls are modelled by explicit outcome oracles: a transport
  oracle maps an attempt number to a fetch outcome, and a batch row oracle
  gives each row its generation outcome and retry notifications.
* Fallible operations return `Except String`; a thrown `Error` is its
  message string.
-/

/-- JS truthiness of an optional string: `undefined` and `""` are falsy. -/
def jsTruthyS : Option String → Bool
  | none => false
  | some s => !(s == "")

/-- JS `a || b` on optional strings. -/
def jsOrS (a b : Option String) : Option String :=
  if jsTruthyS a then a else b

/-- JS `a || b || c` where `c` is a (truthy) string default. -/
def jsOrS3 (a b : Option String) (c : String) : String :=
  if jsTruthyS a then a.getD "" else if jsTruthyS b then b.getD "" else c

/-- JS truthiness of an optional integer: `NaN` (modelled `none`) and 0 are falsy. -/
def jsTruthyN : Option Int → Bool
  | none => false
  | some n => !(n == 0)

/-- JS `a || b || c` on numbers, with `NaN` as `none` and an integer default. -/
def jsOrN3 (a b : Option Int) (c : Int) : Int :=
  if jsTruthyN a then a.getD 0 else if jsTruthyN b then b.getD 0 else c

/-- Longest leading run of decimal digits. -/
def leadingDigits : List Char → List Char
  | [] => []
  | c :: cs => if c.isDigit then c :: leadingDigits cs else []

/-- Decimal value of a digit list, given an accumulator. -/
def digitsVal : List Char → Nat → Nat
  | [], acc => acc
  | c :: cs, acc => digitsVal cs (acc * 10 + (c.toNat - 48))

/-- JS `parseInt(s, 10)`: skip leading whitespace, optional sign, then the
leading decimal digits; `NaN` (here `none`) when no digit follows. -/
def jsParseInt (s : String) : Option Int :=
  let cs := s.toList.dropWhile Char.isWhitespace
  match cs with
  | '-' :: rest =>
      let ds := leadingDigits rest
      if ds.isEmpty then none else some (-(digitsVal ds 0 : Int))
  | '+' :: rest =>
      let ds := leadingDigits rest
      if ds.isEmpty then none else some (digitsVal ds 0 : Int)
  | _ =>
      let ds := leadingDigits cs
      if ds.isEmpty then none else some (digitsVal ds 0 : Int)

/-- `jsParseInt` lifted to an optional string; `parseInt(undefined)` is `NaN`. -/
def jsParseIntOpt : Option String → Option Int
  | none => none
  | some s => jsParseInt s

/-- The canonical signed 32-bit representative of an integer, as produced by
the JS `| 0` coercion. -/
def toInt32 (x : Int) : Int := (x + 2 ^ 31) % 2 ^ 32 - 2 ^ 31

/-- Replace the first occurrence of `pat` in `s` by the empty string, as JS
`s.replace(pat, "")` does for a string pattern. -/
def replaceFirst (s pat : String) : String :=
  match s.splitOn pat with
  | [] => s
  | [_] => s
  | x :: y :: rest => x ++ String.intercalate pat (y :: rest)

/-! ## Aspect-ratio selection (src/services/geminiService.ts, lines 3-20)

JS numbers are IEEE-754 binary64 values.  A double is modelled as an integer
pair `(m, e)` denoting `m * 2 ^ e` (`DFloat`); each arithmetic operation of
the source rounds its exact rational result to 53 significant bits,
round-to-nearest with ties to even.  The exponent range is taken as
unbounded: every magnitude arising in this function is far from the
overflow and subnormal regions, where binary64 agrees with this model. -/

/-- A binary64 value, denoting `m * 2 ^ e` (not necessarily normalized). -/
structure DFloat where
  m : Int
  e : Int
deriving DecidableEq

/-- Number of binary digits of the second argument; the first is fuel. -/
def bitLenF : Nat → Nat → Nat
  | 0, _ => 0
  | fuel + 1, n => if n = 0 then 0 else bitLenF fuel (n / 2) + 1

/-- Number of binary digits of `n` (`0` for `n = 0`). -/
def bitLen (n : Nat) : Nat := bitLenF n n

/-- Whether `n / d < 2 ^ z`, for natural `n`, `d` and an integer `z`. -/
def ratLtPow2 (n d : Nat) (z : Int) : Bool :=
  if 0 ≤ z then decide (n < d * 2 ^ z.toNat) else decide (n * 2 ^ (-z).toNat < d)

/-- Round the positive rational `n / d` (both arguments nonzero) to 53
significant bits, round-to-nearest with ties to even: the mantissa and
exponent of the binary64 result. -/
def roundPos53 (n d : Nat) : DFloat :=
  let e0 : Int := (bitLen n : Int) - (bitLen d : Int)
  let e : Int := if ratLtPow2 n d e0 then e0 - 1 else e0
  let scale : Int := e - 52
  let nd : Nat × Nat :=
    if 0 ≤ scale then (n, d * 2 ^ scale.toNat) else (n * 2 ^ (-scale).toNat, d)
  let q := nd.1 / nd.2
  let r := nd.1 % nd.2
  let m := if 2 * r < nd.2 then q
           else if nd.2 < 2 * r then q + 1
           else if q % 2 = 0 then q else q + 1
  ⟨(m : Int), scale⟩

/-- The binary64 value closest to `num / den`, ties to even.  A zero
denominator does not occur at any call site reached here and maps to `0`. -/
def dblOfRat (num : Int) (den : Nat) : DFloat :=
  if num = 0 ∨ den = 0 then ⟨0, 0⟩
  else if 0 ≤ num then roundPos53 num.toNat den
  else
    let r := roundPos53 (-num).toNat den
    ⟨-r.m, r.e⟩

/-- The binary64 value of a natural number (exact below `2 ^ 53`). -/
def dblOfNat (n : Nat) : DFloat := dblOfRat n 1

/-- Binary64 division: the exact quotient of the two values, rounded once. -/
def DFloat.div (x y : DFloat) : DFloat :=
  let nx := x.m.natAbs
  let ny := y.m.natAbs
  let nd : Nat × Nat :=
    if y.e ≤ x.e then (nx * 2 ^ (x.e - y.e).toNat, ny)
    else (nx, ny * 2 ^ (y.e - x.e).toNat)
  if nd.1 = 0 ∨ nd.2 = 0 then ⟨0, 0⟩
  else
    let r := roundPos53 nd.1 nd.2
    if (decide (x.m < 0)) == (decide (y.m < 0)) then r else ⟨-r.m, r.e⟩

/-- Binary64 subtraction: the exact difference of the two values (a dyadic
rational), rounded once. -/
def DFloat.sub (x y : DFloat) : DFloat :=
  let e := min x.e y.e
  let M : Int := x.m * 2 ^ (x.e - e).toNat - y.m * 2 ^ (y.e - e).toNat
  if M = 0 then ⟨0, 0⟩
  else
    let nd : Nat × Nat :=
      if 0 ≤ e then (M.natAbs * 2 ^ e.toNat, 1) else (M.natAbs, 2 ^ (-e).toNat)
    let r := roundPos53 nd.1 nd.2
    if M < 0 then ⟨-r.m, r.e⟩ else r

/-- `Math.abs` on binary64 values: exact, no rounding. -/
def DFloat.abs (x : DFloat) : DFloat := ⟨(x.m.natAbs : Int), x.e⟩

/-- Strict order on the exact values of two binary64 representations. -/
def DFloat.blt (x y : DFloat) : Bool :=
  decide (x.m * 2 ^ (x.e - min x.e y.e).toNat < y.m * 2 ^ (y.e - min x.e y.e).toNat)

/-- The exact rational value denoted by a `DFloat`. -/
def DFloat.val (x : DFloat) : ℚ := (x.m : ℚ) * 2 ^ x.e

/-- The fixed candidate table `SUPPORTED_ASPECT_RATIOS`, in the source's
enumeration order; each numeric literal `a / b` of the source is the
binary64 quotient of the exact small integers `a` and `b`. -/
def SUPPORTED_ASPECT_RATIOS : List (String × DFloat) :=
  [("1:1", dblOfRat 1 1), ("4:3", dblOfRat 4 3), ("3:4", dblOfRat 3 4),
   ("16:9", dblOfRat 16 9), ("9:16", dblOfRat 9 16)]

/-- `Math.abs(SUPPORTED_ASPECT_RATIOS[c] - targetRatio)`: one rounded
binary64 subtraction followed by an exact absolute value. -/
def aspectDiff (t : DFloat) (p : String × DFloat) : DFloat := (p.2.sub t).abs

/-- The reducer of `getClosestAspectRatio`: keep `curr` only when its
binary64 absolute difference to the target is strictly smaller than that of
`prev`. -/
def keepCloser (t : DFloat) (prev curr : String × DFloat) : String × DFloat :=
  if (aspectDiff t curr).blt (aspectDiff t prev) then curr else prev

/-- `targetRatio = width / height` in binary64, for integer pixel sizes. -/
def aspectTarget (width height : Nat) : DFloat :=
  (dblOfNat width).div (dblOfNat height)

/-- `getClosestAspectRatio(width, height)`: `"1:1"` for `height = 0`, else
the `Array.reduce` of the candidate table by `keepCloser` on the binary64
target ratio. -/
def getClosestAspect (width height : Nat) : String :=
  if height = 0 then "1:1"
  else
    match SUPPORTED_ASPECT_RATIOS with
    | [] => "1:1"
    | a :: rest => (rest.foldl (keepCloser (aspectTarget width height)) a).1

/-! ## Deterministic seed (src/services/geminiService.ts, lines 73-81) -/

/-- One step of the `stringToSeed` loop:
`hash = (hash << 5) - hash + char; hash |= 0`. The `<< 5` itself operates on
32-bit values, hence the inner `toInt32`. -/
def stringToSeedStep (h : Int) (c : Nat) : Int :=
  toInt32 (toInt32 (h * 32) - h + (c : Int))

/-- `stringToSeed`: fold the prompt's UTF-16 char codes through
`stringToSeedStep` starting from 0, then `Math.abs`. -/
def stringToSeed (codes : List Nat) : Int :=
  |codes.foldl stringToSeedStep 0|

/-! ## Placeholder Synthesizer (src/services/geminiService.ts, lines 83-121)

The 2D-canvas drawing is embedded as the exact sequence of context
operations with their computed arguments; the CSS font string is kept as
its components (weight, size in px, family). The browser's PNG encoding of
a fixed command list on a fixed-size canvas is deterministic, so
byte-identity of the output reduces to equality of `PlaceholderCanvas`
values. The 2D context is modelled as available (the `if (ctx)` guard
taken), and the promise only ever resolves. -/

/-- JS `Math.max(a, b)` on (non-NaN) numbers. -/
def jsMaxQ (a b : ℚ) : ℚ := if a ≤ b then b else a

/-- JS `Math.min(a, b)` on (non-NaN) numbers. -/
def jsMinQ (a b : ℚ) : ℚ := if a ≤ b then a else b

/-- One 2D-canvas context operation issued by `generatePlaceholder`. -/
inductive DrawCmd
  | setFillStyle (color : String)
  | fillRect (x y w h : ℚ)
  | setStrokeStyle (color : String)
  | setLineWidth (w : ℚ)
  | strokeRect (x y w h : ℚ)
  | setTextAlign (v : String)
  | setTextBaseline (v : String)
  | setFont (bold : Bool) (sizePx : ℚ) (family : String)
  | fillText (text : String) (x y : ℚ)
deriving DecidableEq

/-- The canvas produced by `generatePlaceholder`: its dimensions and the
ordered drawing commands rendered onto it. -/
structure PlaceholderCanvas where
  width : Int
  height : Int
  commands : List DrawCmd
deriving DecidableEq

/-- The drawing performed by `generatePlaceholder(prompt, width, height)`.
The prompt is only logged by the source, so the image depends on the
dimensions alone; `0.025 = 1/40`, `0.45 = 9/20`, `0.65 = 13/20`. -/
def placeholderImage (prompt : String) (width height : Int) : PlaceholderCanvas :=
  let w : ℚ := width
  let h : ℚ := height
  let fontFamily := "ui-sans-serif, system-ui, sans-serif"
  let mainFontSize : ℚ := jsMaxQ 12 (jsMinQ (w / 5) (h / 4))
  let detailFontSize : ℚ := jsMaxQ 10 (jsMinQ (w / 8) (h / 6))
  { width := width, height := height,
    commands :=
      [ .setFillStyle "#4a2525",
        .fillRect 0 0 w h,
        .setStrokeStyle "#8a4a4a",
        .setLineWidth (jsMaxQ 1 (jsMinQ w h * (1 / 40))),
        .strokeRect 0 0 w h,
        .setFillStyle "#fde8e8",
        .setTextAlign "center",
        .setTextBaseline "middle",
        .setFont true mainFontSize fontFamily,
        .fillText "FAILED" (w / 2) (h * (9 / 20)),
        .setFont false detailFontSize fontFamily,
        .fillText (toString width ++ "x" ++ toString height) (w / 2) (h * (13 / 20)) ] }

/-- `generatePlaceholder`: returns a promise that always resolves with the
rendered canvas; the `Except` codomain records that a rejection channel
exists in principle but is never used. -/
def generatePlaceholder (prompt : String) (width height : Int) :
    Except String PlaceholderCanvas :=
  .ok (placeholderImage prompt width height)

/-! ## Public model with retry (src/services/geminiService.ts, lines 123-180) -/

/-- Outcome of one `fetch` of the public-model URL, as classified by the
source: an OK response with an image blob (already read back as a data URL,
the `FileReader` conversion modelled as succeeding), an OK response with a
non-image content type, a non-OK status, or a thrown network error (carrying
the message of the `Error` the catch block ends up with). -/
inductive FetchOutcome
  | success (dataUrl : String)
  | nonImage (blobType : String)
  | httpFail (status : Nat)
  | netError (msg : String)
deriving DecidableEq

/-- Whether the outcome is the OK-image case, on which the loop returns. -/
def FetchOutcome.isSuccess : FetchOutcome → Bool
  | .success _ => true
  | _ => false

/-- Value with which `generateWithPublicModel` settles. -/
inductive PMOut
  | image (dataUrl : String)
  | placeholder (canvas : PlaceholderCanvas)
deriving DecidableEq

/-- Accumulated observable behaviour of the retry loop: attempts made,
`onRetry` invocations with their arguments, backoff sleeps, the data URL
returned by a successful attempt, and the `lastError` variable. -/
structure PMAcc where
  attempts : Nat := 0
  retryCalls : List (Nat × Nat) := []
  sleeps : List Nat := []
  image : Option String := none
  lastError : Option String := none
deriving DecidableEq

/-- `MAX_RETRIES` of the source. -/
def MAX_RETRIES : Nat := 3

/-- The message of the `Error` recorded for a non-image response. -/
def nonImageMsg (blobType : String) : String :=
  "Public model returned non-image content (type: " ++ blobType ++ ")."

/-- The message of the `Error` recorded for a non-OK status. -/
def statusMsg (status : Nat) : String :=
  "Public model API failed with status: " ++ toString status ++ "."

/-- The `if (attempt < MAX_RETRIES)` block: invoke `onRetry(attempt, delay)`
with `delay = 2 ^ attempt * 1000` and sleep.  `fuelLeft` is the number of
loop iterations still available after the current one, so `fuelLeft ≠ 0`
is exactly `attempt < MAX_RETRIES`. -/
def pmRetryBlock (attempt fuelLeft : Nat) (acc : PMAcc) : PMAcc :=
  if fuelLeft ≠ 0 then
    let delay := 2 ^ attempt * 1000
    { acc with retryCalls := acc.retryCalls ++ [(attempt, delay)],
               sleeps := acc.sleeps ++ [delay] }
  else acc

/-- The `for (let attempt = 1; attempt <= MAX_RETRIES; attempt++)` loop of
`generateWithPublicModel`, driven by the transport oracle `t`.  Invoked as
`pmLoop t 1 MAX_RETRIES {}`; `fuel` counts the iterations still allowed. -/
def pmLoop (t : Nat → FetchOutcome) : Nat → Nat → PMAcc → PMAcc
  | _, 0, acc => acc
  | attempt, fuel + 1, acc =>
    let acc1 := { acc with attempts := acc.attempts + 1 }
    match t attempt with
    | .success d => { acc1 with image := some d }
    | .nonImage ty =>
        let acc2 := { acc1 with lastError := some (nonImageMsg ty) }
        pmLoop t (attempt + 1) fuel (pmRetryBlock attempt fuel acc2)
    | .httpFail s =>
        let acc2 := { acc1 with lastError := some (statusMsg s) }
        if s < 500 ∧ s ≠ 429 then acc2
        else pmLoop t (attempt + 1) fuel (pmRetryBlock attempt fuel acc2)
    | .netError m =>
        let acc2 := { acc1 with lastError := some m }
        pmLoop t (attempt + 1) fuel (pmRetryBlock attempt fuel acc2)

deriving instance DecidableEq for Except

/-- Observable behaviour of one call of `generateWithPublicModel`. -/
structure PMRun where
  attempts : Nat
  retryCalls : List (Nat × Nat)
  sleeps : List Nat
  lastError : Option String
  result : Except String PMOut
deriving DecidableEq

/-- `generateWithPublicModel(prompt, width, height, onRetry)`: run the retry
loop; a successful attempt settles with its image, and when the loop ends
without one the function itself settles with `generatePlaceholder`.  The
`Except` codomain records the rejection channel of the returned promise,
which this path never uses. -/
def generateWithPublicModel (t : Nat → FetchOutcome) (prompt : String)
    (width height : Int) : PMRun :=
  let acc := pmLoop t 1 MAX_RETRIES {}
  { attempts := acc.attempts, retryCalls := acc.retryCalls, sleeps := acc.sleeps,
    lastError := acc.lastError,
    result := match acc.image with
      | some d => .ok (.image d)
      | none => .ok (.placeholder (placeholderImage prompt width height)) }

/-- Transport that always answers HTTP status 500. -/
def alwaysStatus (s : Nat) : Nat → FetchOutcome := fun _ => .httpFail s

/-- Transport answering status 500 on the first attempt and 400 afterwards. -/
def mixedTransport : Nat → FetchOutcome :=
  fun k => if k = 1 then .httpFail 500 else .httpFail 400

/-! ## Single-shot fan-out (src/components/GeneratorPanel/GeneratorPanel.tsx,
lines 58-109) -/

/-- The asset-type options, with their UI label strings. -/
inductive AssetType
  | Character | NPC | Prop | Background
deriving DecidableEq

/-- The label string of an asset type (src/unnamed/part_000). -/
def AssetType.label : AssetType → String
  | .Character => "Karakter"
  | .NPC => "NPC/Musuh"
  | .Prop => "Prop"
  | .Background => "Latar"

/-- The four selectable generation engines. -/
inductive GenerationEngine
  | gemini | dalle3 | deepseek | public
deriving DecidableEq

/-- `engine === 'public' || engine === 'dalle3' || engine === 'deepseek'`. -/
def isSingleVariationEngine : GenerationEngine → Bool
  | .gemini => false
  | _ => true

/-- One settled promise from `Promise.allSettled`: fulfilled with a data URL,
or rejected with a reason that is (`isError`) or is not an `Error`, carrying
the message in the former case. -/
inductive SettledResult
  | fulfilled (value : String)
  | rejected (isError : Bool) (reason : String)
deriving DecidableEq

/-- Whether a settled result is rejected. -/
def SettledResult.isRejected : SettledResult → Bool
  | .rejected _ _ => true
  | _ => false

/-- An entry of the `generatedImages` gallery. -/
structure GeneratedImage where
  src : String
  prompt : String
deriving DecidableEq

/-- The inputs of the single-shot panel that feed `handleGenerateSingle`. -/
structure SingleShotInput where
  masterStyle : String
  assetType : AssetType
  characterPart : String
  facingDirection : String
  width : Int
  height : Int
  specificPrompt : String
deriving DecidableEq

/-- `isCharacterType`: Character or NPC. -/
def SingleShotInput.isCharacterType (inp : SingleShotInput) : Bool :=
  inp.assetType = AssetType.Character ∨ inp.assetType = AssetType.NPC

/-- The `fullPrompt` assembled by `handleGenerateSingle` (lines 61-65). -/
def singleFullPrompt (inp : SingleShotInput) : String :=
  inp.masterStyle ++ ", " ++ inp.assetType.label
    ++ (if inp.isCharacterType then
          ", " ++ inp.characterPart ++ ", facing " ++ inp.facingDirection
        else "")
    ++ ", " ++ inp.specificPrompt ++ ", " ++ toString inp.width ++ "x"
    ++ toString inp.height ++ " pixels, transparent background, centered"

/-- The variation-count clamp of line 68:
`isSingleVariationEngine ? 1 : Math.max(1, Math.min(4, numberOfVariations || 1))`. -/
def clampedVariations (engine : GenerationEngine) (v : Int) : Nat :=
  if isSingleVariationEngine engine then 1
  else (max 1 (min 4 (if v = 0 then 1 else v))).toNat

/-- Result of one run of `handleGenerateSingle`: the clamp actually used, the
new `generatedImages` list it publishes, and the `error` banner it sets. -/
structure SingleRunResult where
  clamped : Nat
  generatedImages : List GeneratedImage
  error : Option String
deriving DecidableEq

/-- The settled results of the `clampedVariations` issued calls, in issue
order (`Promise.allSettled` preserves order). -/
def singleResults (engine : GenerationEngine) (v : Int)
    (outcomes : Nat → SettledResult) : List SettledResult :=
  (List.range (clampedVariations engine v)).map outcomes

/-- The `successfulImages` of lines 85-87: fulfilled values paired with the
full prompt, in settlement order. -/
def singleSuccesses (inp : SingleShotInput) (engine : GenerationEngine)
    (v : Int) (outcomes : Nat → SettledResult) : List GeneratedImage :=
  (singleResults engine v outcomes).filterMap fun r =>
    match r with
    | .fulfilled s => some ⟨s, singleFullPrompt inp⟩
    | .rejected _ _ => none

/-- The all-failed error banner of lines 99-101: the first rejected call's
reason when it is an `Error`, else the generic message. -/
def firstRejectionMsg (results : List SettledResult) : String :=
  match results.find? SettledResult.isRejected with
  | some (.rejected true m) => m
  | _ => "All variations failed to generate."

/-- `handleGenerateSingle`, with the settlement of the `i`-th issued call
supplied by the oracle `outcomes` and `prevImages` the gallery before the
run. -/
def handleGenerateSingle (inp : SingleShotInput) (engine : GenerationEngine)
    (v : Int) (outcomes : Nat → SettledResult)
    (prevImages : List GeneratedImage) : SingleRunResult :=
  let c := clampedVariations engine v
  let results := singleResults engine v outcomes
  let successfulImages := singleSuccesses inp engine v outcomes
  let failedCount := c - successfulImages.length
  let images :=
    if successfulImages.length > 0 then successfulImages ++ prevImages
    else prevImages
  let err :=
    if failedCount > 0 then
      if successfulImages.length > 0 then
        some ("Generated " ++ toString successfulImages.length ++ " of "
          ++ toString c ++ " variations. Some failed.")
      else some (firstRejectionMsg results)
    else none
  ⟨c, images, err⟩

/-! ## Batch job runner (src/components/GeneratorPanel/GeneratorPanel.tsx,
lines 116-259)

The CSV parse is an external collaborator: its result (a parse error, or the
already header-normalized and blank-filtered row list) is an input of the
model.  The per-row adapter call is an oracle `RowOutcome`: the settlement
of `generateFunc` plus the `(attempt, delay)` notifications it emits through
`onRetryCallback` before settling.  Every `setBatchProgress` call publishes
one `BatchState`; `handleBatchFileUpload` returns the ordered list of all
published states, headed by the initial `idle` state of the context. -/

/-- The `status` field of `BatchProgress`. -/
inductive BatchStatus
  | idle | processing | done | error
deriving DecidableEq

/-- The opaque `data` of a generated file: the data URL returned by an
engine, or a rendered placeholder canvas. -/
inductive ImageData
  | url (dataUrl : String)
  | placeholderData (canvas : PlaceholderCanvas)
deriving DecidableEq

/-- One entry of `generatedFiles`. -/
structure GeneratedFile where
  filename : String
  data : ImageData
deriving DecidableEq

/-- `BatchProgress` (src/unnamed/part_000). -/
structure BatchState where
  total : Nat
  current : Nat
  status : BatchStatus
  generatedFiles : List GeneratedFile
  currentFileName : Option String
  error : Option String
deriving DecidableEq

/-- The context's initial value `{total: 0, current: 0, status: idle,
generatedFiles: []}` (src/unnamed/part_002). -/
def initialBatchState : BatchState := ⟨0, 0, .idle, [], none, none⟩

/-- The state published on upload, before parsing (line 120). -/
def parsingState : BatchState := ⟨0, 0, .processing, [], some "Parsing CSV...", none⟩

/-- One parsed CSV row, with the header-normalized fields the runner reads;
`none` is an absent column. -/
structure BatchRow where
  nama_file : Option String := none
  filename : Option String := none
  lebar : Option String := none
  width : Option String := none
  tinggi : Option String := none
  height : Option String := none
  tipe_aset : Option String := none
  asset_type : Option String := none
  bagian_karakter : Option String := none
  character_part : Option String := none
  prompt_spesifik : Option String := none
  specific_prompt : Option String := none
  prompt : Option String := none
  arah_hadap : Option String := none
  facing_direction : Option String := none
deriving DecidableEq

/-- Oracle for one row's adapter call: the settlement of `generateFunc` and
the `(attempt, delay)` retry notifications emitted before it settles. -/
structure RowOutcome where
  gen : Except String String
  retries : List (Nat × Nat) := []
deriving DecidableEq

/-- `(row.nama_file || row.filename || `asset_${i}`) + ".png"` (lines 185-186). -/
def rowFileName (row : BatchRow) (i : Nat) : String :=
  jsOrS3 row.nama_file row.filename ("asset_" ++ toString i) ++ ".png"

/-- `row.lebar || row.width` (line 187). -/
def rowWidthStr (row : BatchRow) : Option String := jsOrS row.lebar row.width

/-- `row.tinggi || row.height` (line 188). -/
def rowHeightStr (row : BatchRow) : Option String := jsOrS row.tinggi row.height

/-- `row.tipe_aset || row.asset_type` (line 199). -/
def rowAssetType (row : BatchRow) : Option String := jsOrS row.tipe_aset row.asset_type

/-- `row.bagian_karakter || row.character_part` (line 200). -/
def rowCharacterPart (row : BatchRow) : Option String :=
  jsOrS row.bagian_karakter row.character_part

/-- `row.prompt_spesifik || row.specific_prompt || row.prompt` (line 201). -/
def rowSpecificPrompt (row : BatchRow) : Option String :=
  jsOrS (jsOrS row.prompt_spesifik row.specific_prompt) row.prompt

/-- `row.arah_hadap || row.facing_direction` (line 202). -/
def rowFacing (row : BatchRow) : Option String := jsOrS row.arah_hadap row.facing_direction

/-- The row-validation error message of line 205. -/
def validationMsg (i : Nat) : String :=
  "Row " ++ toString (i + 2)
    ++ ": Invalid or missing data. Ensure prompt, width, and height are valid."

/-- The `promptParts` composition of lines 208-214: join the truthy parts
with `", "`. -/
def rowPrompt (masterStyle : String) (row : BatchRow) (w h : Int) : String :=
  let parts : List (Option String) :=
    [ some masterStyle, rowAssetType row, rowCharacterPart row, rowSpecificPrompt row,
      some (toString w ++ "x" ++ toString h ++ "px"),
      (if jsTruthyS (rowFacing row) then some ("facing " ++ (rowFacing row).getD "") else none),
      some "transparent background", some "centered" ]
  String.intercalate ", " (parts.filterMap fun p => if jsTruthyS p then p else none)

/-- The per-row `try` body up to the adapter call (lines 196-214): parse the
dimensions, validate, and compose the prompt; `Except.error` is the thrown
validation error. -/
def rowEval (masterStyle : String) (i : Nat) (row : BatchRow) :
    Except String (String × Int × Int) :=
  match jsParseIntOpt (rowWidthStr row), jsParseIntOpt (rowHeightStr row) with
  | some w, some h =>
      if jsTruthyS (rowSpecificPrompt row) ∧ jsTruthyS (rowWidthStr row)
          ∧ jsTruthyS (rowHeightStr row) ∧ 0 < w ∧ 0 < h then
        .ok (rowPrompt masterStyle row w h, w, h)
      else .error (validationMsg i)
  | _, _ => .error (validationMsg i)

/-- `prompt || 'Invalid prompt data'` of line 230. -/
def catchPrompt (p : String) : String :=
  if p == "" then "Invalid prompt data" else p

/-- `width || parseInt(widthStr, 10) || 64` of lines 227-228, in the case
where the local `width` holds the parse result of `widthStr`. -/
def catchDim (parsed : Option Int) : Int := jsOrN3 parsed parsed 64

/-- One `onRetryCallback` invocation (lines 161-169): rewrite
`currentFileName` from the previously published state. -/
def retryState (st : BatchState) (call : Nat × Nat) : BatchState :=
  let fileName := (st.currentFileName.map (fun s => replaceFirst s "Generating: ")).getD "undefined"
  { st with currentFileName := some ("Rate limit hit. Retrying " ++ fileName
      ++ " in " ++ toString (call.2 / 1000) ++ "s... (Attempt " ++ toString call.1 ++ ")") }

/-- The states published by the retry notifications of one row, and the
state left current afterwards. -/
def retrySeq (st : BatchState) : List (Nat × Nat) → List BatchState × BatchState
  | [] => ([], st)
  | c :: rest =>
      let s := retryState st c
      let r := retrySeq s rest
      (s :: r.1, r.2)

/-- The state published at the start of row `i` (line 190): `current := i`
and the `Generating:` label. -/
def rowStartState (st : BatchState) (i : Nat) (fileName : String) : BatchState :=
  { st with current := i, currentFileName := some ("Generating: " ++ fileName) }

/-- The state published after a row's output is appended (lines 217/231). -/
def appendFileState (st : BatchState) (f : GeneratedFile) : BatchState :=
  { st with generatedFiles := st.generatedFiles ++ [f] }

/-- Processing of row `i` (lines 183-237): the states it publishes in order,
the state after the row, whether the row failed, and the `firstErrorMessage`
candidate recorded on failure. -/
def processRow (masterStyle : String) (i : Nat) (row : BatchRow) (oc : RowOutcome)
    (st : BatchState) : List BatchState × BatchState × Bool × String :=
  let fileName := rowFileName row i
  let s1 := rowStartState st i fileName
  match rowEval masterStyle i row with
  | .error msg =>
      let pw := catchDim (jsParseIntOpt (rowWidthStr row))
      let ph := catchDim (jsParseIntOpt (rowHeightStr row))
      let img := placeholderImage (catchPrompt "") pw ph
      let s2 := appendFileState s1 ⟨fileName, .placeholderData img⟩
      ([s1, s2], s2, true, "Error on " ++ fileName ++ ": " ++ msg)
  | .ok (prompt, w, h) =>
      let r := retrySeq s1 oc.retries
      match oc.gen with
      | .ok dataUrl =>
          let s2 := appendFileState r.2 ⟨fileName, .url dataUrl⟩
          (s1 :: r.1 ++ [s2], s2, false, "")
      | .error msg =>
          let pw := jsOrN3 (some w) (jsParseIntOpt (rowWidthStr row)) 64
          let ph := jsOrN3 (some h) (jsParseIntOpt (rowHeightStr row)) 64
          let img := placeholderImage (catchPrompt prompt) pw ph
          let s2 := appendFileState r.2 ⟨fileName, .placeholderData img⟩
          (s1 :: r.1 ++ [s2], s2, true, "Error on " ++ fileName ++ ": " ++ msg)

/-- The sequential row loop, threading the failure counter and
`firstErrorMessage` (initially the falsy `""`). -/
def runRowsAux (masterStyle : String) :
    List (BatchRow × RowOutcome) → Nat → BatchState → Nat → String →
    List BatchState × BatchState × Nat × String
  | [], _, st, fails, firstErr => ([], st, fails, firstErr)
  | (row, oc) :: rest, i, st, fails, firstErr =>
      let p := processRow masterStyle i row oc st
      let fails2 := if p.2.2.1 then fails + 1 else fails
      let firstErr2 := if p.2.2.1 ∧ firstErr == "" then p.2.2.2 else firstErr
      let r := runRowsAux masterStyle rest (i + 1) p.2.1 fails2 firstErr2
      (p.1 ++ r.1, r.2.1, r.2.2.1, r.2.2.2)

/-- Result of the external CSV parse: `results.errors` nonempty (with the
first error's message and row), or the blank-filtered row list, each row
paired with its adapter-call oracle. -/
inductive ParseOutcome
  | parseError (msg : String) (row : Nat)
  | rows (rs : List (BatchRow × RowOutcome))

/-- The state published once the row set is accepted (line 156): `total` is
allocated and the label switches to `Starting generation...`. -/
def batchStartState (n : Nat) : BatchState :=
  { parsingState with total := n, currentFileName := some "Starting generation..." }

/-- The terminal state published after the loop (lines 240-244). -/
def batchTermState (n : Nat) (stFin : BatchState) (fails : Nat) (firstErr : String) :
    BatchState :=
  if fails > 0 then
    { stFin with
      status := .error,
      error := some (toString fails ++ " of " ++ toString n
        ++ " assets failed. First error: " ++ firstErr),
      current := n,
      currentFileName := some "Completed with errors." }
  else
    { stFin with
      status := .done,
      current := n,
      currentFileName := some "Completed!" }

/-- `handleBatchFileUpload`: the ordered list of every published
`BatchProgress` state, starting from the context's initial `idle` state. -/
def handleBatchFileUpload (masterStyle : String) (parse : ParseOutcome) :
    List BatchState :=
  match parse with
  | .parseError msg row =>
      [initialBatchState, parsingState,
       ⟨0, 0, .error, [], none,
        some ("CSV Parse Error: " ++ msg ++ " on row " ++ toString (row + 2) ++ ".")⟩]
  | .rows rs =>
      if rs.isEmpty then
        [initialBatchState, parsingState,
         ⟨0, 0, .error, [], none, some "CSV is empty or contains no valid data rows."⟩]
      else
        let r := runRowsAux masterStyle rs 0 (batchStartState rs.length) 0 ""
        initialBatchState :: parsingState :: batchStartState rs.length
          :: (r.1 ++ [batchTermState rs.length r.2.1 r.2.2.1 r.2.2.2])

/-- The single `generatedFiles` entry row `i` contributes: the engine's image
on success, a placeholder on validation failure or a failed call. -/
def expectedFile (masterStyle : String) (i : Nat) (row : BatchRow)
    (oc : RowOutcome) : GeneratedFile :=
  match rowEval masterStyle i row with
  | .error _ =>
      ⟨rowFileName row i, .placeholderData (placeholderImage (catchPrompt "")
        (catchDim (jsParseIntOpt (rowWidthStr row)))
        (catchDim (jsParseIntOpt (rowHeightStr row))))⟩
  | .ok (prompt, w, h) =>
      match oc.gen with
      | .ok d => ⟨rowFileName row i, .url d⟩
      | .error _ =>
          ⟨rowFileName row i, .placeholderData (placeholderImage (catchPrompt prompt)
            (jsOrN3 (some w) (jsParseIntOpt (rowWidthStr row)) 64)
            (jsOrN3 (some h) (jsParseIntOpt (rowHeightStr row)) 64))⟩

/-- The files contributed by a row list starting at index `i`, one per row. -/
def expectedFiles (masterStyle : String) : Nat → List (BatchRow × RowOutcome) → List GeneratedFile
  | _, [] => []
  | i, (row, oc) :: rest =>
      expectedFile masterStyle i row oc :: expectedFiles masterStyle (i + 1) rest

/-- Whether row `i` fails: validation failure or failed adapter call. -/
def rowFails (masterStyle : String) (i : Nat) (row : BatchRow) (oc : RowOutcome) : Bool :=
  match rowEval masterStyle i row with
  | .error _ => true
  | .ok _ => match oc.gen with
    | .ok _ => false
    | .error _ => true

/-- Number of failing rows of a row list starting at index `i`. -/
def countFails (masterStyle : String) : Nat → List (BatchRow × RowOutcome) → Nat
  | _, [] => 0
  | i, (row, oc) :: rest =>
      (if rowFails masterStyle i row oc then 1 else 0) + countFails masterStyle (i + 1) rest

/-- The retry calls issued after attempts `a0, a0+1, ...` (`n` of them). -/
def callsFor (a0 n : Nat) : List (Nat × Nat) :=
  (List.range' a0 n).map (fun k => (k, 2 ^ k * 1000))

/-! ## Lemmas about the public-model retry loop -/

theorem callsFor_succ (a0 n : Nat) :
    callsFor a0 (n + 1) = (a0, 2 ^ a0 * 1000) :: callsFor (a0 + 1) n := by
  simp [callsFor, List.range']

theorem callsFor_pos (a0 m : Nat) (h : 1 ≤ m) :
    callsFor a0 m = (a0, 2 ^ a0 * 1000) :: callsFor (a0 + 1) (m - 1) := by
  cases m with
  | zero => omega
  | succ n => simp [callsFor_succ]

theorem pmRetryBlock_attempts (a f : Nat) (acc : PMAcc) :
    (pmRetryBlock a f acc).attempts = acc.attempts := by
  unfold pmRetryBlock; split_ifs <;> rfl

theorem pmRetryBlock_image (a f : Nat) (acc : PMAcc) :
    (pmRetryBlock a f acc).image = acc.image := by
  unfold pmRetryBlock; split_ifs <;> rfl

theorem pmRetryBlock_retryCalls (a f : Nat) (acc : PMAcc) (h : f ≠ 0) :
    (pmRetryBlock a f acc).retryCalls = acc.retryCalls ++ [(a, 2 ^ a * 1000)] := by
  simp [pmRetryBlock, h]

theorem pmRetryBlock_sleeps (a f : Nat) (acc : PMAcc) (h : f ≠ 0) :
    (pmRetryBlock a f acc).sleeps = acc.sleeps ++ [2 ^ a * 1000] := by
  simp [pmRetryBlock, h]

/-- Every run of the retry loop makes `m` attempts for some `1 ≤ m ≤ fuel`,
emits exactly the retry calls after attempts `a0 .. a0+m-2`, and sleeps once
per retry call. -/
theorem pmLoop_spec (t : Nat → FetchOutcome) :
    ∀ (fuel a0 : Nat) (acc : PMAcc), fuel ≠ 0 →
    ∃ m, 1 ≤ m ∧ m ≤ fuel ∧
      (pmLoop t a0 fuel acc).attempts = acc.attempts + m ∧
      (pmLoop t a0 fuel acc).retryCalls = acc.retryCalls ++ callsFor a0 (m - 1) ∧
      (pmLoop t a0 fuel acc).sleeps = acc.sleeps ++ (callsFor a0 (m - 1)).map Prod.snd := by
  intro fuel
  induction fuel with
  | zero => intro a0 acc h; exact absurd rfl h
  | succ f ih =>
    intro a0 acc _
    have step : ∀ X : PMAcc, X.attempts = acc.attempts + 1 →
        X.retryCalls = acc.retryCalls → X.sleeps = acc.sleeps →
        pmLoop t a0 (f + 1) acc = pmLoop t (a0 + 1) f (pmRetryBlock a0 f X) →
        ∃ m, 1 ≤ m ∧ m ≤ f + 1 ∧
          (pmLoop t a0 (f + 1) acc).attempts = acc.attempts + m ∧
          (pmLoop t a0 (f + 1) acc).retryCalls = acc.retryCalls ++ callsFor a0 (m - 1) ∧
          (pmLoop t a0 (f + 1) acc).sleeps
            = acc.sleeps ++ (callsFor a0 (m - 1)).map Prod.snd := by
      intro X hXa hXc hXs hE
      by_cases h0 : f = 0
      · subst h0
        refine ⟨1, le_rfl, le_rfl, ?_, ?_, ?_⟩ <;>
          rw [hE] <;> simp [pmLoop, pmRetryBlock, callsFor, hXa, hXc, hXs]
      · obtain ⟨m, hm1, hm2, ha, hc, hsl⟩ := ih (a0 + 1) (pmRetryBlock a0 f X) h0
        refine ⟨m + 1, by omega, by omega, ?_, ?_, ?_⟩
        · rw [hE, ha, pmRetryBlock_attempts, hXa]; omega
        · rw [hE, hc, pmRetryBlock_retryCalls _ _ _ h0, hXc]
          simp only [Nat.add_sub_cancel]
          rw [callsFor_pos a0 m hm1]
          simp
        · rw [hE, hsl, pmRetryBlock_sleeps _ _ _ h0, hXs]
          simp only [Nat.add_sub_cancel]
          rw [callsFor_pos a0 m hm1]
          simp
    rcases hf : t a0 with d | ty | s | m
    · exact ⟨1, le_rfl, by omega, by simp [pmLoop, hf, callsFor],
        by simp [pmLoop, hf, callsFor], by simp [pmLoop, hf, callsFor]⟩
    · exact step ⟨acc.attempts + 1, acc.retryCalls, acc.sleeps, acc.image,
        some (nonImageMsg ty)⟩ rfl rfl rfl (by simp [pmLoop, hf])
    · by_cases hterm : s < 500 ∧ s ≠ 429
      · exact ⟨1, le_rfl, by omega,
          by simp [pmLoop, hf, hterm.1, hterm.2, callsFor],
          by simp [pmLoop, hf, hterm.1, hterm.2, callsFor],
          by simp [pmLoop, hf, hterm.1, hterm.2, callsFor]⟩
      · exact step ⟨acc.attempts + 1, acc.retryCalls, acc.sleeps, acc.image,
          some (statusMsg s)⟩ rfl rfl rfl (by simp [pmLoop, hf, hterm])
    · exact step ⟨acc.attempts + 1, acc.retryCalls, acc.sleeps, acc.image,
        some m⟩ rfl rfl rfl (by simp [pmLoop, hf])

/-- Once the attempt reached at index `k` observes a non-429 status below
500, the loop breaks there: whenever the run starting at attempt `a0`
executes at least `k - a0 + 1` attempts, it executes exactly that many. -/
theorem pmLoop_terminal_abort (t : Nat → FetchOutcome) :
    ∀ (fuel a0 : Nat) (acc : PMAcc) (k s : Nat),
    t k = .httpFail s → s < 500 → s ≠ 429 → a0 ≤ k →
    k + 1 ≤ a0 + ((pmLoop t a0 fuel acc).attempts - acc.attempts) →
    a0 + ((pmLoop t a0 fuel acc).attempts - acc.attempts) = k + 1 := by
  intro fuel
  induction fuel with
  | zero =>
    intro a0 acc k s hk hs1 hs2 hak hle
    simp [pmLoop] at hle ⊢
    omega
  | succ f ih =>
    intro a0 acc k s hk hs1 hs2 hak hle
    have step : ∀ X : PMAcc, X.attempts = acc.attempts + 1 →
        pmLoop t a0 (f + 1) acc = pmLoop t (a0 + 1) f (pmRetryBlock a0 f X) →
        k ≠ a0 →
        a0 + ((pmLoop t a0 (f + 1) acc).attempts - acc.attempts) = k + 1 := by
      intro X hXa hE hne
      have hYa : (pmRetryBlock a0 f X).attempts = acc.attempts + 1 := by
        rw [pmRetryBlock_attempts, hXa]
      rw [hE] at hle ⊢
      by_cases h0 : f = 0
      · subst h0
        simp only [pmLoop] at hle ⊢
        rw [hYa] at hle ⊢
        omega
      · obtain ⟨m, hm1, _, hmA, _, _⟩ := pmLoop_spec t f (a0 + 1) (pmRetryBlock a0 f X) h0
        have hle2 : k + 1 ≤ (a0 + 1)
            + ((pmLoop t (a0 + 1) f (pmRetryBlock a0 f X)).attempts
                - (pmRetryBlock a0 f X).attempts) := by
          rw [hmA, hYa] at hle
          rw [hmA]
          omega
        have hcon := ih (a0 + 1) (pmRetryBlock a0 f X) k s hk hs1 hs2 (by omega) hle2
        rw [hmA, hYa] at hcon ⊢
        omega
    rcases ha0 : t a0 with d | ty | s0 | msg
    · have hA : (pmLoop t a0 (f + 1) acc).attempts = acc.attempts + 1 := by
        simp [pmLoop, ha0]
      have hne : k ≠ a0 := by
        intro he
        subst he
        simp [hk] at ha0
      rw [hA] at hle ⊢
      omega
    · have hne : k ≠ a0 := by
        intro he
        subst he
        simp [hk] at ha0
      exact step ⟨acc.attempts + 1, acc.retryCalls, acc.sleeps, acc.image,
        some (nonImageMsg ty)⟩ rfl (by simp [pmLoop, ha0]) hne
    · by_cases hterm : s0 < 500 ∧ s0 ≠ 429
      · have hA : (pmLoop t a0 (f + 1) acc).attempts = acc.attempts + 1 := by
          simp [pmLoop, ha0, hterm.1, hterm.2]
        rw [hA] at hle ⊢
        omega
      · have hne : k ≠ a0 := by
          intro he
          subst he
          rw [hk] at ha0
          injection ha0 with hss
          subst hss
          exact hterm ⟨hs1, hs2⟩
        exact step ⟨acc.attempts + 1, acc.retryCalls, acc.sleeps, acc.image,
          some (statusMsg s0)⟩ rfl (by simp [pmLoop, ha0, hterm]) hne
    · have hne : k ≠ a0 := by
        intro he
        subst he
        simp [hk] at ha0
      exact step ⟨acc.attempts + 1, acc.retryCalls, acc.sleeps, acc.image,
        some msg⟩ rfl (by simp [pmLoop, ha0]) hne

/-- If no fetch attempt is the OK-image case, the loop never records an
image. -/
theorem pmLoop_image_of_no_success (t : Nat → FetchOutcome)
    (hs : ∀ k, (t k).isSuccess = false) :
    ∀ (fuel a0 : Nat) (acc : PMAcc), (pmLoop t a0 fuel acc).image = acc.image := by
  intro fuel
  induction fuel with
  | zero => intro a0 acc; rfl
  | succ f ih =>
    intro a0 acc
    rcases hf : t a0 with d | ty | s | m
    · have hk := hs a0
      rw [hf] at hk
      simp [FetchOutcome.isSuccess] at hk
    · simp only [pmLoop, hf]
      rw [ih, pmRetryBlock_image]
    · by_cases hterm : s < 500 ∧ s ≠ 429
      · simp [pmLoop, hf, hterm.1, hterm.2]
      · simp only [pmLoop, hf]
        rw [if_neg hterm, ih, pmRetryBlock_image]
    · simp only [pmLoop, hf]
      rw [ih, pmRetryBlock_image]

/-- Characterization of one `generateWithPublicModel` run: between 1 and
`MAX_RETRIES` attempts, the retry calls are the prefix of
`[(1, 2000), (2, 4000)]` matching the attempts made, and sleeps pair up with
retry calls. -/
theorem generateWithPublicModel_shape (t : Nat → FetchOutcome) (p : String) (w h : Int) :
    1 ≤ (generateWithPublicModel t p w h).attempts ∧
    (generateWithPublicModel t p w h).attempts ≤ MAX_RETRIES ∧
    (generateWithPublicModel t p w h).retryCalls
      = [(1, 2000), (2, 4000)].take ((generateWithPublicModel t p w h).attempts - 1) ∧
    (generateWithPublicModel t p w h).sleeps
      = (generateWithPublicModel t p w h).retryCalls.map Prod.snd := by
  obtain ⟨m, hm1, hm2, ha, hc, hsl⟩ := pmLoop_spec t MAX_RETRIES 1 {} (by decide)
  have hA : (generateWithPublicModel t p w h).attempts = m := by
    show (pmLoop t 1 MAX_RETRIES {}).attempts = m
    rw [ha]; simp
  have hC : (generateWithPublicModel t p w h).retryCalls = callsFor 1 (m - 1) := by
    show (pmLoop t 1 MAX_RETRIES {}).retryCalls = callsFor 1 (m - 1)
    rw [hc]; simp
  have hS : (generateWithPublicModel t p w h).sleeps = (callsFor 1 (m - 1)).map Prod.snd := by
    show (pmLoop t 1 MAX_RETRIES {}).sleeps = (callsFor 1 (m - 1)).map Prod.snd
    rw [hsl]; simp
  have hM : MAX_RETRIES = 3 := rfl
  rw [hM] at hm2
  refine ⟨by omega, by rw [hM]; omega, ?_, ?_⟩
  · rw [hC, hA]
    interval_cases m <;> decide
  · rw [hS, hC]

/-! ## Claims C1, C6, C10: the Retry/Backoff Controller -/

/-- C1, counterexample: with a transport that always answers status 500, the
public-model operation settles successfully with a Placeholder Synthesizer
result — the last observed error is recorded internally but never surfaced
to the caller, contradicting the claim that the operation surfaces the last
error and never produces a placeholder itself. -/
theorem publicModel_surfaces_error_counterexample :
    (generateWithPublicModel (alwaysStatus 500) "p" 64 64).result
      = .ok (.placeholder (placeholderImage "p" 64 64)) ∧
    (generateWithPublicModel (alwaysStatus 500) "p" 64 64).lastError
      = some "Public model API failed with status: 500." :=
  ⟨rfl, rfl⟩

/-- C1, amended: in every call of `generateWithPublicModel` in which no
attempt succeeds — whether attempts are exhausted or a terminal non-429 4xx
status breaks the loop — the operation itself settles with the Placeholder
Synthesizer result for `(prompt, width, height)` and does not surface the
last observed error to the caller. -/
theorem publicModel_placeholder_on_failure (t : Nat → FetchOutcome) (p : String)
    (w h : Int) (hs : ∀ k, (t k).isSuccess = false) :
    (generateWithPublicModel t p w h).result
      = .ok (.placeholder (placeholderImage p w h)) := by
  have h0 : (pmLoop t 1 MAX_RETRIES {}).image = none := by
    rw [pmLoop_image_of_no_success t hs MAX_RETRIES 1 {}]
  simp [generateWithPublicModel, h0]

/-- C1, witness: the amended theorem applied to an always-404 transport. -/
theorem publicModel_placeholder_on_failure_witness :
    (∀ k, ((alwaysStatus 404) k).isSuccess = false) ∧
    (generateWithPublicModel (alwaysStatus 404) "w" 10 20).result
      = .ok (.placeholder (placeholderImage "w" 10 20)) :=
  ⟨fun _ => rfl,
   publicModel_placeholder_on_failure (alwaysStatus 404) "w" 10 20 (fun _ => rfl)⟩

/-- C6, counterexample: against an always-500 transport exactly 3 attempts
occur with sleeps 2000 and 4000, but no failure is surfaced at the end: the
operation settles successfully with a placeholder result. -/
theorem retry_schedule_counterexample :
    (generateWithPublicModel (alwaysStatus 500) "q" 32 32).attempts = 3 ∧
    (generateWithPublicModel (alwaysStatus 500) "q" 32 32).sleeps = [2000, 4000] ∧
    (generateWithPublicModel (alwaysStatus 500) "q" 32 32).result
      = .ok (.placeholder (placeholderImage "q" 32 32)) :=
  ⟨rfl, rfl, rfl⟩

/-- C6, amended: the retry loop makes between 1 and 3 attempts; the backoff
delays are the prefix of `[2000, 4000]` determined by the attempts made
(delay `2^k * 1000` before attempt `k+1`); a failing non-429 status below
500 on the first attempt aborts the remaining attempts immediately, and so
does such a status on any later attempt the run reaches (the run then ends
exactly there); against an always-500 transport exactly 3 attempts occur
with delays 2000 and 4000 before the operation completes by returning a
placeholder result (not by surfacing the failure); a first-attempt 400
gives exactly 1 attempt; a 500 followed by a 400 gives exactly 2 attempts
with the single delay 2000. -/
theorem retry_backoff_schedule (t : Nat → FetchOutcome) (p : String) (w h : Int)
    (s : Nat) :
    (1 ≤ (generateWithPublicModel t p w h).attempts ∧
      (generateWithPublicModel t p w h).attempts ≤ MAX_RETRIES) ∧
    (generateWithPublicModel t p w h).sleeps
      = [2000, 4000].take ((generateWithPublicModel t p w h).attempts - 1) ∧
    (t 1 = .httpFail s → s < 500 → s ≠ 429 →
      (generateWithPublicModel t p w h).attempts = 1) ∧
    ((∀ k, t k = .httpFail 500) →
      (generateWithPublicModel t p w h).attempts = 3 ∧
      (generateWithPublicModel t p w h).sleeps = [2000, 4000] ∧
      (generateWithPublicModel t p w h).result
        = .ok (.placeholder (placeholderImage p w h))) ∧
    (t 1 = .httpFail 400 → (generateWithPublicModel t p w h).attempts = 1) ∧
    (∀ k s2, t k = .httpFail s2 → s2 < 500 → s2 ≠ 429 → 1 ≤ k →
      k ≤ (generateWithPublicModel t p w h).attempts →
      (generateWithPublicModel t p w h).attempts = k) ∧
    (t 1 = .httpFail 500 → t 2 = .httpFail 400 →
      (generateWithPublicModel t p w h).attempts = 2 ∧
      (generateWithPublicModel t p w h).sleeps = [2000]) := by
  obtain ⟨h1, h2, hc, hsl⟩ := generateWithPublicModel_shape t p w h
  have hbreak : ∀ s2 : Nat, t 1 = .httpFail s2 → s2 < 500 → s2 ≠ 429 →
      (generateWithPublicModel t p w h).attempts = 1 := by
    intro s2 ht1 hlt hne
    simp [generateWithPublicModel, MAX_RETRIES, pmLoop, ht1, hlt, hne]
  refine ⟨⟨h1, h2⟩, ?_, hbreak s, ?_,
    fun h400 => hbreak 400 h400 (by omega) (by omega), ?_, ?_⟩
  · rw [hsl, hc]
    simp [List.map_take]
  · intro h500
    have hA : (generateWithPublicModel t p w h).attempts = 3 := by
      simp [generateWithPublicModel, MAX_RETRIES, pmLoop, pmRetryBlock, h500]
    have hR : (generateWithPublicModel t p w h).result
        = .ok (.placeholder (placeholderImage p w h)) := by
      apply publicModel_placeholder_on_failure
      intro k
      rw [h500 k]
      rfl
    refine ⟨hA, ?_, hR⟩
    rw [hsl, hc, hA]
    decide
  · intro k s2 htk hlt hne hk1 hkA
    have hG : (generateWithPublicModel t p w h).attempts
        = (pmLoop t 1 MAX_RETRIES {}).attempts := rfl
    rw [hG] at hkA ⊢
    have hz : (({} : PMAcc)).attempts = 0 := rfl
    have habort := pmLoop_terminal_abort t MAX_RETRIES 1 {} k s2 htk hlt hne hk1
      (by rw [hz]; omega)
    rw [hz] at habort
    omega
  · intro h5 h4
    constructor <;>
      simp [generateWithPublicModel, MAX_RETRIES, pmLoop, pmRetryBlock, h5, h4]

/-- C6, witness: the amended theorem applied to the 500-then-400 transport,
with the hypotheses of the mid-run abort clauses discharged there. -/
theorem retry_backoff_schedule_witness :
    mixedTransport 1 = FetchOutcome.httpFail 500 ∧
    mixedTransport 2 = FetchOutcome.httpFail 400 ∧
    (generateWithPublicModel mixedTransport "z" 4 4).attempts = 2 ∧
    (generateWithPublicModel mixedTransport "z" 4 4).sleeps = [2000] := by
  have hmix := retry_backoff_schedule mixedTransport "z" 4 4 500
  have h2 := hmix.2.2.2.2.2.2 rfl rfl
  have hA : (generateWithPublicModel mixedTransport "z" 4 4).attempts = 2 := h2.1
  refine ⟨rfl, rfl, ?_, h2.2⟩
  exact hmix.2.2.2.2.2.1 2 400 rfl (by omega) (by omega) (by omega) (by omega)

/-- C10: in every run of `generateWithPublicModel`, the `onRetry` observer is
invoked at most twice, only with arguments `(k, 2^k * 1000)` for
`k ∈ {1, 2}`, each invocation paired with the backoff sleep of the same
delay, and each invocation on attempt `k` strictly precedes a further
attempt (`k < attempts`); it never fires after the final attempt or after a
terminal-status break. -/
theorem onRetry_calls_characterization (t : Nat → FetchOutcome) (p : String) (w h : Int) :
    (generateWithPublicModel t p w h).retryCalls
      = [(1, 2000), (2, 4000)].take ((generateWithPublicModel t p w h).attempts - 1) ∧
    (generateWithPublicModel t p w h).retryCalls.length ≤ 2 ∧
    (generateWithPublicModel t p w h).sleeps
      = (generateWithPublicModel t p w h).retryCalls.map Prod.snd ∧
    ∀ pr ∈ (generateWithPublicModel t p w h).retryCalls,
      (pr = (1, 2000) ∨ pr = (2, 4000)) ∧
      pr.1 < (generateWithPublicModel t p w h).attempts ∧
      pr.2 = 2 ^ pr.1 * 1000 := by
  obtain ⟨h1, h2, hc, hsl⟩ := generateWithPublicModel_shape t p w h
  have hM : MAX_RETRIES = 3 := rfl
  rw [hM] at h2
  refine ⟨hc, ?_, hsl, ?_⟩
  · rw [hc]
    simp [List.length_take]
  · intro pr hpr
    rw [hc] at hpr
    rcases e : (generateWithPublicModel t p w h).attempts - 1 with _ | n
    · rw [e] at hpr
      simp at hpr
    · rcases n with _ | n2
      · rw [e] at hpr
        simp at hpr
        subst hpr
        refine ⟨Or.inl rfl, by omega, by decide⟩
      · rw [e] at hpr
        have htake : ([(1, 2000), (2, 4000)] : List (Nat × Nat)).take (n2 + 1 + 1)
            = [(1, 2000), (2, 4000)] := by
          simp [List.take]
        rw [htake] at hpr
        simp at hpr
        rcases hpr with hpr | hpr <;> subst hpr
        · exact ⟨Or.inl rfl, by omega, by decide⟩
        · exact ⟨Or.inr rfl, by omega, by decide⟩

/-- C10, witness: the characterization applied to the always-500 transport
at the retry call `(1, 2000)`, whose membership is discharged by
evaluation. -/
theorem onRetry_calls_characterization_witness :
    (1, 2000) ∈ (generateWithPublicModel (alwaysStatus 500) "x" 8 8).retryCalls ∧
    (((1, 2000) = ((1 : Nat), (2000 : Nat)) ∨ (1, 2000) = (2, 4000)) ∧
      (1, 2000).1 < (generateWithPublicModel (alwaysStatus 500) "x" 8 8).attempts ∧
      (1, 2000).2 = 2 ^ (1, 2000).1 * 1000) :=
  ⟨by decide,
   (onRetry_calls_characterization (alwaysStatus 500) "x" 8 8).2.2.2 (1, 2000) (by decide)⟩

theorem stringToSeedStep_eq (h : Int) (c : Nat) :
    stringToSeedStep h c = toInt32 (31 * h + (c : Int)) := by
  unfold stringToSeedStep toInt32
  have h31 : (2:Int) ^ 31 = 2147483648 := by norm_num
  have h32 : (2:Int) ^ 32 = 4294967296 := by norm_num
  rw [h31, h32]
  omega

theorem foldl_seed_eq (l : List Nat) :
    ∀ a : Int, l.foldl stringToSeedStep a
      = l.foldl (fun h c => toInt32 (31 * h + (c : Int))) a := by
  induction l with
  | nil => intro a; rfl
  | cons c cs ih => intro a; simp only [List.foldl, stringToSeedStep_eq]; exact ih _

/-! ## Claims C5, C8, C9 -/

/-- C8: `stringToSeed` is a pure function of the prompt's char-code sequence
returning a non-negative integer equal to folding `hash = hash * 31 + code`
with signed 32-bit truncation at each step and `Math.abs` at the end;
repeated derivation yields the identical value. -/
theorem stringToSeed_spec (codes : List Nat) :
    stringToSeed codes
      = |List.foldl (fun h c => toInt32 (31 * h + (c : Int))) 0 codes| ∧
    0 ≤ stringToSeed codes ∧
    stringToSeed codes = stringToSeed codes := by
  refine ⟨?_, abs_nonneg _, rfl⟩
  unfold stringToSeed
  rw [foldl_seed_eq]

/-- C9: the Placeholder Synthesizer never fails — for every
`(prompt, width, height)` it resolves with a rendered canvas — and it is
deterministic: two runs on identical inputs produce identical output. -/
theorem generatePlaceholder_total_deterministic (p : String) (w h : Int) :
    (∃ img, generatePlaceholder p w h = .ok img) ∧
    (∀ r1 r2, generatePlaceholder p w h = .ok r1 →
      generatePlaceholder p w h = .ok r2 → r1 = r2) := by
  refine ⟨⟨placeholderImage p w h, rfl⟩, ?_⟩
  intro r1 r2 h1 h2
  rw [h1] at h2
  exact Except.ok.inj h2

/-- C9, witness: totality and determinism evaluated at a concrete input. -/
theorem generatePlaceholder_total_deterministic_witness :
    (∃ img, generatePlaceholder "a" 64 64 = .ok img) ∧
    placeholderImage "a" 64 64 = placeholderImage "a" 64 64 :=
  ⟨(generatePlaceholder_total_deterministic "a" 64 64).1,
   (generatePlaceholder_total_deterministic "a" 64 64).2
     (placeholderImage "a" 64 64) (placeholderImage "a" 64 64) rfl rfl⟩

/-- Rescaling the exact value of a mantissa-exponent pair to a common
exponent `E` below `e`. -/
theorem DFloat.val_shift (m e E : Int) (h : E ≤ e) :
    (m : ℚ) * 2 ^ e = ((m * 2 ^ (e - E).toNat : ℤ) : ℚ) * 2 ^ E := by
  have hk : (((e - E).toNat : ℤ)) = e - E := Int.toNat_of_nonneg (by omega)
  push_cast
  rw [mul_assoc]
  congr 1
  rw [← zpow_natCast (2 : ℚ) (e - E).toNat, ← zpow_add₀ (by norm_num : (2:ℚ) ≠ 0)]
  rw [hk, sub_add_cancel]

/-- The executable comparison `DFloat.blt` decides the strict order of the
exact values. -/
theorem DFloat.blt_iff (x y : DFloat) : x.blt y = true ↔ x.val < y.val := by
  have hx := DFloat.val_shift x.m x.e (min x.e y.e) (min_le_left _ _)
  have hy := DFloat.val_shift y.m y.e (min x.e y.e) (min_le_right _ _)
  simp only [DFloat.blt, DFloat.val, decide_eq_true_eq]
  rw [hx, hy, mul_lt_mul_right (by positivity), Int.cast_lt]

/-- A fold by `keepCloser` returns the earliest minimizer of the binary64
absolute difference to the target: the start list splits around the result,
which weakly minimizes over the whole list and strictly beats everything
placed before it ("minimizes" refers to the exact values of the computed
binary64 differences). -/
theorem foldl_keepCloser_firstMin (t : DFloat) :
    ∀ (l : List (String × DFloat)) (a : String × DFloat),
    ∃ l1 p l2, a :: l = l1 ++ p :: l2 ∧
      l.foldl (keepCloser t) a = p ∧
      (∀ q ∈ a :: l, (aspectDiff t p).val ≤ (aspectDiff t q).val) ∧
      (∀ q ∈ l1, (aspectDiff t p).val < (aspectDiff t q).val) := by
  intro l
  induction l with
  | nil =>
    intro a
    exact ⟨[], a, [], rfl, rfl, by simp, by simp⟩
  | cons c l ih =>
    intro a
    have hstep : (c :: l).foldl (keepCloser t) a = l.foldl (keepCloser t) (keepCloser t a c) := rfl
    by_cases hca : (aspectDiff t c).val < (aspectDiff t a).val
    · obtain ⟨l1, p, l2, hsplit, hfold, hmin, hstrict⟩ := ih c
      have hb : (aspectDiff t c).blt (aspectDiff t a) = true := (DFloat.blt_iff _ _).mpr hca
      have hkeep : keepCloser t a c = c := by simp [keepCloser, hb]
      have hpc : (aspectDiff t p).val ≤ (aspectDiff t c).val := hmin c (by simp)
      refine ⟨a :: l1, p, l2, ?_, ?_, ?_, ?_⟩
      · rw [List.cons_append, ← hsplit]
      · rw [hstep, hkeep, hfold]
      · intro q hq
        rcases List.mem_cons.mp hq with rfl | hq2
        · exact le_of_lt (lt_of_le_of_lt hpc hca)
        · exact hmin q hq2
      · intro q hq
        rcases List.mem_cons.mp hq with rfl | hq2
        · exact lt_of_le_of_lt hpc hca
        · exact hstrict q hq2
    · push_neg at hca
      obtain ⟨l1, p, l2, hsplit, hfold, hmin, hstrict⟩ := ih a
      have hb : ¬ ((aspectDiff t c).blt (aspectDiff t a) = true) := by
        intro hb2
        exact absurd ((DFloat.blt_iff _ _).mp hb2) (not_lt.mpr hca)
      have hkeep : keepCloser t a c = a := by simp [keepCloser, hb]
      rcases l1 with _ | ⟨a0, l1b⟩
      · simp only [List.nil_append] at hsplit
        have hpa : p = a := (List.cons.injEq _ _ _ _).mp hsplit |>.1.symm
        have hl2 : l2 = l := (List.cons.injEq _ _ _ _).mp hsplit |>.2.symm
        subst hpa
        refine ⟨[], p, c :: l, rfl, ?_, ?_, by simp⟩
        · rw [hstep, hkeep, hfold]
        · intro q hq
          rcases List.mem_cons.mp hq with rfl | hq2
          · exact le_refl _
          · rcases List.mem_cons.mp hq2 with rfl | hq3
            · exact hca
            · exact hmin q (by simp [hq3])
      · have hinj := (List.cons.injEq _ _ _ _).mp (by simpa using hsplit)
        have ha0 : a0 = a := hinj.1.symm
        have hl : l = l1b ++ p :: l2 := hinj.2
        subst ha0
        have hpa : (aspectDiff t p).val < (aspectDiff t a0).val := hstrict a0 (by simp)
        refine ⟨a0 :: c :: l1b, p, l2, ?_, ?_, ?_, ?_⟩
        · rw [hl]; rfl
        · rw [hstep, hkeep, hfold]
        · intro q hq
          rcases List.mem_cons.mp hq with rfl | hq2
          · exact le_of_lt hpa
          · rcases List.mem_cons.mp hq2 with rfl | hq3
            · exact le_trans (le_of_lt hpa) hca
            · exact hmin q (by simp [hq3])
        · intro q hq
          rcases List.mem_cons.mp hq with rfl | hq2
          · exact hpa
          · rcases List.mem_cons.mp hq2 with rfl | hq3
            · exact lt_of_lt_of_le hpa hca
            · exact hstrict q (by simp [hq3])

set_option maxRecDepth 8000 in
/-- C5, counterexample: at `(width, height) = (7, 6)` the exact absolute
differences of the `1:1` and `4:3` ratios to `7 / 6` are equal, so the
claimed exact-arithmetic minimization with ties to the earlier member
demands `"1:1"`; the program, computing the differences in binary64,
returns `"4:3"`, because the two rounded differences differ by one unit in
the last place. -/
theorem getClosestAspect_tie_counterexample :
    getClosestAspect 7 6 = "4:3" ∧
    |(1 : ℚ) - 7 / 6| = |4 / 3 - 7 / 6| ∧
    ("4:3" : String) ≠ "1:1" := by
  refine ⟨by decide, ?_, by decide⟩
  rw [show (1 : ℚ) - 7 / 6 = -(1 / 6) by norm_num,
      show (4 : ℚ) / 3 - 7 / 6 = 1 / 6 by norm_num, abs_neg]

/-- C5, amended: for `height = 0` the aspect-ratio selection returns
`"1:1"`; otherwise it returns the member of the enumerated candidate table
that minimizes the absolute difference between its ratio and
`width / height` as the program computes it — in binary64 floating-point
arithmetic — with ties in that arithmetic broken in favour of the earlier
member in enumeration order (every earlier member is strictly worse). -/
theorem getClosestAspect_spec (width height : ℕ) :
    (height = 0 → getClosestAspect width height = "1:1") ∧
    (height ≠ 0 →
      ∃ l1 p l2, SUPPORTED_ASPECT_RATIOS = l1 ++ p :: l2 ∧
        getClosestAspect width height = p.1 ∧
        (∀ q ∈ SUPPORTED_ASPECT_RATIOS,
          (aspectDiff (aspectTarget width height) p).val
            ≤ (aspectDiff (aspectTarget width height) q).val) ∧
        (∀ q ∈ l1,
          (aspectDiff (aspectTarget width height) p).val
            < (aspectDiff (aspectTarget width height) q).val)) := by
  constructor
  · intro h0
    subst h0
    simp [getClosestAspect]
  · intro h0
    obtain ⟨l1, p, l2, hsplit, hfold, hmin, hstrict⟩ :=
      foldl_keepCloser_firstMin (aspectTarget width height)
        [("4:3", dblOfRat 4 3), ("3:4", dblOfRat 3 4),
         ("16:9", dblOfRat 16 9), ("9:16", dblOfRat 9 16)] ("1:1", dblOfRat 1 1)
    have hlist : SUPPORTED_ASPECT_RATIOS
        = ("1:1", dblOfRat 1 1) :: [("4:3", dblOfRat 4 3), ("3:4", dblOfRat 3 4),
            ("16:9", dblOfRat 16 9), ("9:16", dblOfRat 9 16)] := rfl
    have hg : getClosestAspect width height
        = ([("4:3", dblOfRat 4 3), ("3:4", dblOfRat 3 4),
            ("16:9", dblOfRat 16 9), ("9:16", dblOfRat 9 16)].foldl
            (keepCloser (aspectTarget width height)) ("1:1", dblOfRat 1 1)).1 := by
      simp [getClosestAspect, SUPPORTED_ASPECT_RATIOS, h0]
    refine ⟨l1, p, l2, ?_, ?_, ?_, hstrict⟩
    · rw [hlist, hsplit]
    · rw [hg, hfold]
    · intro q hq2
      exact hmin q (by rw [← hlist]; exact hq2)

/-- C5, witness: both legs at concrete inputs `(5, 0)` and `(16, 9)`. -/
theorem getClosestAspect_spec_witness :
    getClosestAspect 5 0 = "1:1" ∧
    ((9 : ℕ) ≠ 0 ∧
    ∃ l1 p l2, SUPPORTED_ASPECT_RATIOS = l1 ++ p :: l2 ∧
      getClosestAspect 16 9 = p.1 ∧
      (∀ q ∈ SUPPORTED_ASPECT_RATIOS,
        (aspectDiff (aspectTarget 16 9) p).val
          ≤ (aspectDiff (aspectTarget 16 9) q).val) ∧
      (∀ q ∈ l1,
        (aspectDiff (aspectTarget 16 9) p).val
          < (aspectDiff (aspectTarget 16 9) q).val)) :=
  ⟨(getClosestAspect_spec 5 0).1 rfl,
   by decide, (getClosestAspect_spec 16 9).2 (by decide)⟩

/-! ## Claim C7: the Single-Shot Fan-out Executor -/

/-- C7: engines supporting a single output are clamped to exactly 1 call
regardless of the requested count, `gemini` is clamped to `[1, 4]`; when at
least one call succeeds all successes are published (prepended to the
gallery) and, if some calls failed, the banner is exactly
`"Generated X of Y variations. Some failed."` with `X` the success count and
`Y` the clamped count; when all calls fail the first rejected call's reason
is surfaced when it is an `Error`, else a generic message. -/
theorem handleGenerateSingle_spec (inp : SingleShotInput) (engine : GenerationEngine)
    (v : Int) (outcomes : Nat → SettledResult) (prev : List GeneratedImage) :
    (isSingleVariationEngine engine = true → clampedVariations engine v = 1) ∧
    (engine = .gemini → (clampedVariations engine v : Int) = max 1 (min 4 v)) ∧
    1 ≤ clampedVariations engine v ∧
    clampedVariations engine v ≤ 4 ∧
    (handleGenerateSingle inp engine v outcomes prev).clamped = clampedVariations engine v ∧
    (0 < (singleSuccesses inp engine v outcomes).length →
      (handleGenerateSingle inp engine v outcomes prev).generatedImages
        = singleSuccesses inp engine v outcomes ++ prev) ∧
    (0 < (singleSuccesses inp engine v outcomes).length →
      (singleSuccesses inp engine v outcomes).length < clampedVariations engine v →
      (handleGenerateSingle inp engine v outcomes prev).error
        = some ("Generated " ++ toString (singleSuccesses inp engine v outcomes).length
            ++ " of " ++ toString (clampedVariations engine v)
            ++ " variations. Some failed.")) ∧
    ((singleSuccesses inp engine v outcomes).length = 0 →
      (handleGenerateSingle inp engine v outcomes prev).generatedImages = prev ∧
      (handleGenerateSingle inp engine v outcomes prev).error
        = some (firstRejectionMsg (singleResults engine v outcomes))) := by
  have hone : 1 ≤ clampedVariations engine v ∧ clampedVariations engine v ≤ 4 := by
    cases engine <;> simp [clampedVariations, isSingleVariationEngine] <;>
      by_cases hv : v = 0 <;> simp [hv] <;> omega
  refine ⟨?_, ?_, hone.1, hone.2, rfl, ?_, ?_, ?_⟩
  · intro hs
    simp [clampedVariations, hs]
  · intro he
    subst he
    simp only [clampedVariations, isSingleVariationEngine, Bool.false_eq_true, if_false]
    by_cases hv : v = 0 <;> simp [hv] <;> omega
  · intro hpos
    simp [handleGenerateSingle, hpos]
  · intro hpos hlt
    have hfail : 0 < clampedVariations engine v - (singleSuccesses inp engine v outcomes).length := by
      omega
    simp [handleGenerateSingle, hpos, hfail]
  · intro hzero
    have hfail : 0 < clampedVariations engine v - (singleSuccesses inp engine v outcomes).length := by
      omega
    simp [handleGenerateSingle, hzero, hfail]
    omega

/-- C7, witness: the clamp conclusions at `public`/`gemini`, and the
partial-success aggregation at a concrete 4-variation run in which calls 1
and 3 are rejected. -/
theorem handleGenerateSingle_spec_witness :
    clampedVariations .public 5 = 1 ∧
    ((clampedVariations .gemini 9 : Int) = max 1 (min 4 9)) ∧
    ((handleGenerateSingle ⟨"ms", .Prop, "", "", 64, 64, "sp"⟩ .gemini 4
        (fun i => if i % 2 == 1 then .rejected true ("fail" ++ toString i)
                  else .fulfilled "ok") []).generatedImages
      = singleSuccesses ⟨"ms", .Prop, "", "", 64, 64, "sp"⟩ .gemini 4
          (fun i => if i % 2 == 1 then .rejected true ("fail" ++ toString i)
                    else .fulfilled "ok") ++ []) ∧
    ((handleGenerateSingle ⟨"ms", .Prop, "", "", 64, 64, "sp"⟩ .gemini 4
        (fun i => if i % 2 == 1 then .rejected true ("fail" ++ toString i)
                  else .fulfilled "ok") []).error
      = some ("Generated "
          ++ toString (singleSuccesses ⟨"ms", .Prop, "", "", 64, 64, "sp"⟩ .gemini 4
              (fun i => if i % 2 == 1 then .rejected true ("fail" ++ toString i)
                        else .fulfilled "ok")).length
          ++ " of " ++ toString (clampedVariations .gemini 4)
          ++ " variations. Some failed.")) :=
  ⟨(handleGenerateSingle_spec ⟨"", .Prop, "", "", 1, 1, ""⟩ .public 5
      (fun _ => .fulfilled "s") []).1 rfl,
   (handleGenerateSingle_spec ⟨"", .Prop, "", "", 1, 1, ""⟩ .gemini 9
      (fun _ => .fulfilled "s") []).2.1 rfl,
   (handleGenerateSingle_spec ⟨"ms", .Prop, "", "", 64, 64, "sp"⟩ .gemini 4
      (fun i => if i % 2 == 1 then .rejected true ("fail" ++ toString i)
                else .fulfilled "ok") []).2.2.2.2.2.1 (by decide),
   (handleGenerateSingle_spec ⟨"ms", .Prop, "", "", 64, 64, "sp"⟩ .gemini 4
      (fun i => if i % 2 == 1 then .rejected true ("fail" ++ toString i)
                else .fulfilled "ok") []).2.2.2.2.2.2.1 (by decide) (by decide)⟩

/-! ## Claims C2, C3, C4: the Batch Job Runner -/

theorem rowStartState_fields (st : BatchState) (i : Nat) (fn : String) :
    (rowStartState st i fn).total = st.total ∧
    (rowStartState st i fn).status = st.status ∧
    (rowStartState st i fn).current = i ∧
    (rowStartState st i fn).generatedFiles = st.generatedFiles :=
  ⟨rfl, rfl, rfl, rfl⟩

theorem appendFileState_fields (st : BatchState) (f : GeneratedFile) :
    (appendFileState st f).total = st.total ∧
    (appendFileState st f).status = st.status ∧
    (appendFileState st f).current = st.current ∧
    (appendFileState st f).generatedFiles = st.generatedFiles ++ [f] :=
  ⟨rfl, rfl, rfl, rfl⟩

theorem retryState_fields (st : BatchState) (c : Nat × Nat) :
    (retryState st c).current = st.current ∧ (retryState st c).total = st.total ∧
    (retryState st c).status = st.status ∧
    (retryState st c).generatedFiles = st.generatedFiles :=
  ⟨rfl, rfl, rfl, rfl⟩

theorem retrySeq_snd_fields (l : List (Nat × Nat)) : ∀ st : BatchState,
    (retrySeq st l).2.current = st.current ∧ (retrySeq st l).2.total = st.total ∧
    (retrySeq st l).2.status = st.status ∧
    (retrySeq st l).2.generatedFiles = st.generatedFiles := by
  induction l with
  | nil => intro st; exact ⟨rfl, rfl, rfl, rfl⟩
  | cons c rest ih =>
    intro st
    have h := ih (retryState st c)
    simp only [retrySeq]
    exact ⟨h.1, h.2.1, h.2.2.1, h.2.2.2⟩

theorem retrySeq_mem_fields (l : List (Nat × Nat)) : ∀ st : BatchState,
    ∀ s ∈ (retrySeq st l).1,
    s.current = st.current ∧ s.total = st.total ∧ s.status = st.status ∧
    s.generatedFiles = st.generatedFiles := by
  induction l with
  | nil => intro st s hs; simp [retrySeq] at hs
  | cons c rest ih =>
    intro st s hs
    simp only [retrySeq, List.mem_cons] at hs
    rcases hs with rfl | hs
    · exact ⟨rfl, rfl, rfl, rfl⟩
    · have h := ih (retryState st c) s hs
      exact ⟨h.1, h.2.1, h.2.2.1, h.2.2.2⟩

theorem processRow_spec (ms : String) (i : Nat) (row : BatchRow) (oc : RowOutcome)
    (st : BatchState) :
    (processRow ms i row oc st).2.1.total = st.total ∧
    (processRow ms i row oc st).2.1.status = st.status ∧
    (processRow ms i row oc st).2.1.current = i ∧
    (processRow ms i row oc st).2.1.generatedFiles
      = st.generatedFiles ++ [expectedFile ms i row oc] ∧
    (processRow ms i row oc st).2.2.1 = rowFails ms i row oc ∧
    (processRow ms i row oc st).1 ≠ [] ∧
    (processRow ms i row oc st).1.getLast? = some (processRow ms i row oc st).2.1 ∧
    (∀ s ∈ (processRow ms i row oc st).1,
      s.total = st.total ∧ s.status = st.status ∧ s.current = i ∧
      (s.generatedFiles = st.generatedFiles ∨
       s.generatedFiles = st.generatedFiles ++ [expectedFile ms i row oc])) := by
  have hs1 := rowStartState_fields st i (rowFileName row i)
  rcases hre : rowEval ms i row with msg | ⟨prompt, w, h⟩
  · have hP : processRow ms i row oc st
        = ([rowStartState st i (rowFileName row i),
            appendFileState (rowStartState st i (rowFileName row i))
              ⟨rowFileName row i, .placeholderData
                (placeholderImage (catchPrompt "")
                  (catchDim (jsParseIntOpt (rowWidthStr row)))
                  (catchDim (jsParseIntOpt (rowHeightStr row))))⟩],
           appendFileState (rowStartState st i (rowFileName row i))
              ⟨rowFileName row i, .placeholderData
                (placeholderImage (catchPrompt "")
                  (catchDim (jsParseIntOpt (rowWidthStr row)))
                  (catchDim (jsParseIntOpt (rowHeightStr row))))⟩,
           true, "Error on " ++ rowFileName row i ++ ": " ++ msg) := by
      simp only [processRow, hre]
    have hE : expectedFile ms i row oc
        = ⟨rowFileName row i, .placeholderData
            (placeholderImage (catchPrompt "")
              (catchDim (jsParseIntOpt (rowWidthStr row)))
              (catchDim (jsParseIntOpt (rowHeightStr row))))⟩ := by
      simp only [expectedFile, hre]
    have hF : rowFails ms i row oc = true := by simp only [rowFails, hre]
    rw [hP, hE, hF]
    dsimp only
    have ha := appendFileState_fields (rowStartState st i (rowFileName row i))
      ⟨rowFileName row i, .placeholderData
        (placeholderImage (catchPrompt "")
          (catchDim (jsParseIntOpt (rowWidthStr row)))
          (catchDim (jsParseIntOpt (rowHeightStr row))))⟩
    refine ⟨by rw [ha.1, hs1.1], by rw [ha.2.1, hs1.2.1],
      by rw [ha.2.2.1, hs1.2.2.1], by rw [ha.2.2.2, hs1.2.2.2], rfl, by simp, by simp, ?_⟩
    intro s hs
    rcases List.mem_cons.mp hs with rfl | hs2
    · exact ⟨hs1.1, hs1.2.1, hs1.2.2.1, Or.inl hs1.2.2.2⟩
    · have hx := List.mem_singleton.mp hs2
      subst hx
      exact ⟨by rw [ha.1, hs1.1], by rw [ha.2.1, hs1.2.1], by rw [ha.2.2.1, hs1.2.2.1],
        Or.inr (by rw [ha.2.2.2, hs1.2.2.2])⟩
  · have hsr := retrySeq_snd_fields oc.retries (rowStartState st i (rowFileName row i))
    have hsm := retrySeq_mem_fields oc.retries (rowStartState st i (rowFileName row i))
    rcases hgen : oc.gen with msg2 | dataUrl
    · have hP : processRow ms i row oc st
          = (rowStartState st i (rowFileName row i)
              :: (retrySeq (rowStartState st i (rowFileName row i)) oc.retries).1
              ++ [appendFileState
                    (retrySeq (rowStartState st i (rowFileName row i)) oc.retries).2
                    ⟨rowFileName row i, .placeholderData
                      (placeholderImage (catchPrompt prompt)
                        (jsOrN3 (some w) (jsParseIntOpt (rowWidthStr row)) 64)
                        (jsOrN3 (some h) (jsParseIntOpt (rowHeightStr row)) 64))⟩],
             appendFileState
               (retrySeq (rowStartState st i (rowFileName row i)) oc.retries).2
               ⟨rowFileName row i, .placeholderData
                 (placeholderImage (catchPrompt prompt)
                   (jsOrN3 (some w) (jsParseIntOpt (rowWidthStr row)) 64)
                   (jsOrN3 (some h) (jsParseIntOpt (rowHeightStr row)) 64))⟩,
             true, "Error on " ++ rowFileName row i ++ ": " ++ msg2) := by
        simp only [processRow, hre, hgen]
      have hE : expectedFile ms i row oc
          = ⟨rowFileName row i, .placeholderData
              (placeholderImage (catchPrompt prompt)
                (jsOrN3 (some w) (jsParseIntOpt (rowWidthStr row)) 64)
                (jsOrN3 (some h) (jsParseIntOpt (rowHeightStr row)) 64))⟩ := by
        simp only [expectedFile, hre, hgen]
      have hF : rowFails ms i row oc = true := by simp only [rowFails, hre, hgen]
      rw [hP, hE, hF]
      dsimp only
      have ha := appendFileState_fields
        (retrySeq (rowStartState st i (rowFileName row i)) oc.retries).2
        ⟨rowFileName row i, .placeholderData
          (placeholderImage (catchPrompt prompt)
            (jsOrN3 (some w) (jsParseIntOpt (rowWidthStr row)) 64)
            (jsOrN3 (some h) (jsParseIntOpt (rowHeightStr row)) 64))⟩
      refine ⟨by rw [ha.1, hsr.2.1, hs1.1], by rw [ha.2.1, hsr.2.2.1, hs1.2.1],
        by rw [ha.2.2.1, hsr.1, hs1.2.2.1],
        by rw [ha.2.2.2, hsr.2.2.2, hs1.2.2.2], rfl, by simp, ?_, ?_⟩
      · rw [List.getLast?_concat]
      · intro s hs
        rcases List.mem_cons.mp hs with rfl | hs2
        · exact ⟨hs1.1, hs1.2.1, hs1.2.2.1, Or.inl hs1.2.2.2⟩
        · rcases List.mem_append.mp hs2 with hs3 | hs3
          · have hm := hsm s hs3
            exact ⟨by rw [hm.2.1, hs1.1], by rw [hm.2.2.1, hs1.2.1],
              by rw [hm.1, hs1.2.2.1], Or.inl (by rw [hm.2.2.2, hs1.2.2.2])⟩
          · have hx := List.mem_singleton.mp hs3
            subst hx
            exact ⟨by rw [ha.1, hsr.2.1, hs1.1], by rw [ha.2.1, hsr.2.2.1, hs1.2.1],
              by rw [ha.2.2.1, hsr.1, hs1.2.2.1],
              Or.inr (by rw [ha.2.2.2, hsr.2.2.2, hs1.2.2.2])⟩
    · have hP : processRow ms i row oc st
          = (rowStartState st i (rowFileName row i)
              :: (retrySeq (rowStartState st i (rowFileName row i)) oc.retries).1
              ++ [appendFileState
                    (retrySeq (rowStartState st i (rowFileName row i)) oc.retries).2
                    ⟨rowFileName row i, .url dataUrl⟩],
             appendFileState
               (retrySeq (rowStartState st i (rowFileName row i)) oc.retries).2
               ⟨rowFileName row i, .url dataUrl⟩,
             false, "") := by
        simp only [processRow, hre, hgen]
      have hE : expectedFile ms i row oc = ⟨rowFileName row i, .url dataUrl⟩ := by
        simp only [expectedFile, hre, hgen]
      have hF : rowFails ms i row oc = false := by simp only [rowFails, hre, hgen]
      rw [hP, hE, hF]
      dsimp only
      have ha := appendFileState_fields
        (retrySeq (rowStartState st i (rowFileName row i)) oc.retries).2
        ⟨rowFileName row i, .url dataUrl⟩
      refine ⟨by rw [ha.1, hsr.2.1, hs1.1], by rw [ha.2.1, hsr.2.2.1, hs1.2.1],
        by rw [ha.2.2.1, hsr.1, hs1.2.2.1],
        by rw [ha.2.2.2, hsr.2.2.2, hs1.2.2.2], rfl, by simp, ?_, ?_⟩
      · rw [List.getLast?_concat]
      · intro s hs
        rcases List.mem_cons.mp hs with rfl | hs2
        · exact ⟨hs1.1, hs1.2.1, hs1.2.2.1, Or.inl hs1.2.2.2⟩
        · rcases List.mem_append.mp hs2 with hs3 | hs3
          · have hm := hsm s hs3
            exact ⟨by rw [hm.2.1, hs1.1], by rw [hm.2.2.1, hs1.2.1],
              by rw [hm.1, hs1.2.2.1], Or.inl (by rw [hm.2.2.2, hs1.2.2.2])⟩
          · have hx := List.mem_singleton.mp hs3
            subst hx
            exact ⟨by rw [ha.1, hsr.2.1, hs1.1], by rw [ha.2.1, hsr.2.2.1, hs1.2.1],
              by rw [ha.2.2.1, hsr.1, hs1.2.2.1],
              Or.inr (by rw [ha.2.2.2, hsr.2.2.2, hs1.2.2.2])⟩

theorem expectedFiles_length (ms : String) : ∀ (rows : List (BatchRow × RowOutcome)) (i : Nat),
    (expectedFiles ms i rows).length = rows.length := by
  intro rows
  induction rows with
  | nil => intro i; rfl
  | cons rc rest ih =>
    intro i
    obtain ⟨row, oc⟩ := rc
    simp [expectedFiles, ih]

theorem runRowsAux_spec (ms : String) :
    ∀ (rows : List (BatchRow × RowOutcome)) (i : Nat) (st : BatchState)
      (fails : Nat) (fe : String),
    (runRowsAux ms rows i st fails fe).2.1.total = st.total ∧
    (runRowsAux ms rows i st fails fe).2.1.status = st.status ∧
    (runRowsAux ms rows i st fails fe).2.1.generatedFiles
      = st.generatedFiles ++ expectedFiles ms i rows ∧
    (runRowsAux ms rows i st fails fe).2.2.1 = fails + countFails ms i rows := by
  intro rows
  induction rows with
  | nil =>
    intro i st fails fe
    simp [runRowsAux, expectedFiles, countFails]
  | cons rc rest ih =>
    obtain ⟨row, oc⟩ := rc
    intro i st fails fe
    have hp := processRow_spec ms i row oc st
    have hr := ih (i + 1) (processRow ms i row oc st).2.1
      (if (processRow ms i row oc st).2.2.1 then fails + 1 else fails)
      (if (processRow ms i row oc st).2.2.1 ∧ fe == "" then (processRow ms i row oc st).2.2.2
       else fe)
    simp only [runRowsAux]
    refine ⟨?_, ?_, ?_, ?_⟩
    · rw [hr.1, hp.1]
    · rw [hr.2.1, hp.2.1]
    · rw [hr.2.2.1, hp.2.2.2.1]
      simp [expectedFiles]
    · rw [hr.2.2.2, hp.2.2.2.2.1]
      simp only [countFails]
      rcases rowFails ms i row oc with _ | _ <;> simp <;> omega

theorem chain'_const_current :
    ∀ (L : List BatchState) (x : BatchState) (i : Nat), x.current ≤ i →
    (∀ s ∈ L, s.current = i) →
    List.Chain' (fun a b : BatchState => a.current ≤ b.current) (x :: L) := by
  intro L
  induction L with
  | nil => intro x i _ _; simp
  | cons y L ih =>
    intro x i hx hall
    rw [List.chain'_cons]
    constructor
    · rw [hall y (by simp)]; exact hx
    · exact ih y i (le_of_eq (hall y (by simp))) (fun s hs => hall s (by simp [hs]))

theorem runRowsAux_trace (ms : String) :
    ∀ (rows : List (BatchRow × RowOutcome)) (i : Nat) (st : BatchState)
      (fails : Nat) (fe : String),
    st.current ≤ i → st.generatedFiles.length = i →
    List.Chain' (fun a b : BatchState => a.current ≤ b.current)
      (st :: (runRowsAux ms rows i st fails fe).1) ∧
    (∀ s ∈ (runRowsAux ms rows i st fails fe).1,
      (s.generatedFiles.length = s.current ∨ s.generatedFiles.length = s.current + 1) ∧
      s.current < i + rows.length ∧ s.total = st.total ∧ s.status = st.status) ∧
    (rows ≠ [] →
      (runRowsAux ms rows i st fails fe).1.getLast?
        = some (runRowsAux ms rows i st fails fe).2.1) ∧
    (rows = [] → (runRowsAux ms rows i st fails fe).1 = []) := by
  intro rows
  induction rows with
  | nil =>
    intro i st fails fe hcur hlen
    refine ⟨by simp [runRowsAux], by simp [runRowsAux], by simp, fun _ => by simp [runRowsAux]⟩
  | cons rc rest ih =>
    obtain ⟨row, oc⟩ := rc
    intro i st fails fe hcur hlen
    have hp := processRow_spec ms i row oc st
    have hpfin_cur : (processRow ms i row oc st).2.1.current = i := hp.2.2.1
    have hpfin_len : (processRow ms i row oc st).2.1.generatedFiles.length = i + 1 := by
      rw [hp.2.2.2.1]; simp [hlen]
    have hr := ih (i + 1) (processRow ms i row oc st).2.1
      (if (processRow ms i row oc st).2.2.1 then fails + 1 else fails)
      (if (processRow ms i row oc st).2.2.1 ∧ fe == "" then (processRow ms i row oc st).2.2.2
       else fe)
      (by rw [hpfin_cur]; omega) hpfin_len
    simp only [runRowsAux]
    refine ⟨?_, ?_, ?_, by simp⟩
    · -- Chain over st :: (p.1 ++ r.1)
      rw [← List.cons_append]
      rw [List.chain'_append]
      refine ⟨?_, ?_, ?_⟩
      · exact chain'_const_current (processRow ms i row oc st).1 st i hcur
          (fun s hs => (hp.2.2.2.2.2.2.2 s hs).2.2.1)
      · exact (List.chain'_cons'.mp hr.1).2
      · intro x hx y hy
        have hxl : (st :: (processRow ms i row oc st).1).getLast?
            = some (processRow ms i row oc st).2.1 := by
          rcases hone : (processRow ms i row oc st).1 with _ | ⟨b, l2⟩
          · exact absurd hone hp.2.2.2.2.2.1
          · rw [List.getLast?_cons_cons]
            rw [← hone, hp.2.2.2.2.2.2.1]
        rw [hxl] at hx
        have hxeq : (processRow ms i row oc st).2.1 = x := by
          simpa using hx
        subst hxeq
        have hy2 := (List.chain'_cons'.mp hr.1).1 y hy
        exact hy2
    · intro s hs
      rcases List.mem_append.mp hs with hs1 | hs2
      · have hm := hp.2.2.2.2.2.2.2 s hs1
        refine ⟨?_, ?_, hm.1, hm.2.1⟩
        · rcases hm.2.2.2 with hfe | hfe
          · left; rw [hfe, hm.2.2.1, hlen]
          · right; rw [hfe, hm.2.2.1]; simp [hlen]
        · rw [hm.2.2.1]; simp
      · have hm := hr.2.1 s hs2
        refine ⟨hm.1, ?_, ?_, ?_⟩
        · have := hm.2.1; simp at this ⊢; omega
        · rw [hm.2.2.1, hp.1]
        · rw [hm.2.2.2, hp.2.1]
    · intro _
      by_cases hrest0 : rest = []
      · subst hrest0
        simpa [runRowsAux] using hp.2.2.2.2.2.2.1
      · have hlast := hr.2.2.1 hrest0
        have hr1ne : (runRowsAux ms rest (i + 1) (processRow ms i row oc st).2.1
            (if (processRow ms i row oc st).2.2.1 then fails + 1 else fails)
            (if (processRow ms i row oc st).2.2.1 ∧ fe == ""
             then (processRow ms i row oc st).2.2.2 else fe)).1 ≠ [] := by
          intro hnil
          rw [hnil] at hlast
          simp at hlast
        rw [List.getLast?_append_of_ne_nil _ hr1ne]
        exact hlast

theorem batchStartState_fields (n : Nat) :
    (batchStartState n).total = n ∧ (batchStartState n).current = 0 ∧
    (batchStartState n).status = .processing ∧ (batchStartState n).generatedFiles = [] :=
  ⟨rfl, rfl, rfl, rfl⟩

theorem batchTermState_fields (n : Nat) (stFin : BatchState) (fails : Nat) (fe : String) :
    (batchTermState n stFin fails fe).generatedFiles = stFin.generatedFiles ∧
    (batchTermState n stFin fails fe).current = n ∧
    (batchTermState n stFin fails fe).total = stFin.total ∧
    (batchTermState n stFin fails fe).status
      = (if fails = 0 then BatchStatus.done else BatchStatus.error) := by
  unfold batchTermState
  rcases Nat.eq_zero_or_pos fails with h | h
  · subst h
    simp
  · have : fails > 0 := h
    simp [this, Nat.pos_iff_ne_zero.mp h]

theorem handleBatch_rows_eq (ms : String) (rs : List (BatchRow × RowOutcome))
    (hne : rs ≠ []) :
    handleBatchFileUpload ms (.rows rs)
      = initialBatchState :: parsingState :: batchStartState rs.length
        :: ((runRowsAux ms rs 0 (batchStartState rs.length) 0 "").1
            ++ [batchTermState rs.length
                 (runRowsAux ms rs 0 (batchStartState rs.length) 0 "").2.1
                 (runRowsAux ms rs 0 (batchStartState rs.length) 0 "").2.2.1
                 (runRowsAux ms rs 0 (batchStartState rs.length) 0 "").2.2.2]) := by
  have hempty : rs.isEmpty = false := by
    rcases rs with _ | _
    · exact absurd rfl hne
    · rfl
  simp only [handleBatchFileUpload, hempty]
  simp

theorem handleBatch_rows_getLast (ms : String) (rs : List (BatchRow × RowOutcome))
    (hne : rs ≠ []) :
    (handleBatchFileUpload ms (.rows rs)).getLast?
      = some (batchTermState rs.length
          (runRowsAux ms rs 0 (batchStartState rs.length) 0 "").2.1
          (runRowsAux ms rs 0 (batchStartState rs.length) 0 "").2.2.1
          (runRowsAux ms rs 0 (batchStartState rs.length) 0 "").2.2.2) := by
  rw [handleBatch_rows_eq ms rs hne]
  have hsh : initialBatchState :: parsingState :: batchStartState rs.length
        :: ((runRowsAux ms rs 0 (batchStartState rs.length) 0 "").1
            ++ [batchTermState rs.length
                 (runRowsAux ms rs 0 (batchStartState rs.length) 0 "").2.1
                 (runRowsAux ms rs 0 (batchStartState rs.length) 0 "").2.2.1
                 (runRowsAux ms rs 0 (batchStartState rs.length) 0 "").2.2.2])
      = (initialBatchState :: parsingState :: batchStartState rs.length
          :: (runRowsAux ms rs 0 (batchStartState rs.length) 0 "").1)
        ++ [batchTermState rs.length
             (runRowsAux ms rs 0 (batchStartState rs.length) 0 "").2.1
             (runRowsAux ms rs 0 (batchStartState rs.length) 0 "").2.2.1
             (runRowsAux ms rs 0 (batchStartState rs.length) 0 "").2.2.2] := by
    simp
  rw [hsh, List.getLast?_concat]

/-- C4: for every non-empty accepted row list of length N, the batch job's
terminal state satisfies `generatedFiles.length = N = current = total`,
`generatedFiles` holds exactly one entry per row in order (the engine image
on success, a Placeholder Synthesizer result on validation failure or a
failed call — no row skipped), and the terminal status is `done` when the
failure counter is 0 and `error` otherwise. -/
theorem batch_completion_spec (ms : String) (rs : List (BatchRow × RowOutcome))
    (hne : rs ≠ []) :
    ∃ fin, (handleBatchFileUpload ms (.rows rs)).getLast? = some fin ∧
      fin.generatedFiles = expectedFiles ms 0 rs ∧
      fin.generatedFiles.length = rs.length ∧
      fin.current = rs.length ∧
      fin.total = rs.length ∧
      fin.status = (if countFails ms 0 rs = 0 then BatchStatus.done else BatchStatus.error) := by
  have hs := runRowsAux_spec ms rs 0 (batchStartState rs.length) 0 ""
  have ht := batchTermState_fields rs.length
    (runRowsAux ms rs 0 (batchStartState rs.length) 0 "").2.1
    (runRowsAux ms rs 0 (batchStartState rs.length) 0 "").2.2.1
    (runRowsAux ms rs 0 (batchStartState rs.length) 0 "").2.2.2
  have hfiles : (batchTermState rs.length
      (runRowsAux ms rs 0 (batchStartState rs.length) 0 "").2.1
      (runRowsAux ms rs 0 (batchStartState rs.length) 0 "").2.2.1
      (runRowsAux ms rs 0 (batchStartState rs.length) 0 "").2.2.2).generatedFiles
      = expectedFiles ms 0 rs := by
    rw [ht.1, hs.2.2.1]
    simp [batchStartState, parsingState]
  refine ⟨_, handleBatch_rows_getLast ms rs hne, hfiles, ?_, ht.2.1, ?_, ?_⟩
  · rw [hfiles, expectedFiles_length]
  · rw [ht.2.2.1, hs.1]
    rfl
  · rw [ht.2.2.2, hs.2.2.2]
    simp

/-- C2, amended: over every published state of a batch run, `current` is
monotonically non-decreasing, `generatedFiles.length` equals `current` or
`current + 1` (the latter exactly between a row's append and the next
publish of `current`), and in the terminal state `current = total`.  The
original claim `generatedFiles.length = current` at every observation point
fails right after each append. -/
theorem batch_progress_invariants (ms : String) (parse : ParseOutcome) :
    List.Chain' (fun a b : BatchState => a.current ≤ b.current)
      (handleBatchFileUpload ms parse) ∧
    (∀ s ∈ handleBatchFileUpload ms parse,
      s.generatedFiles.length = s.current ∨ s.generatedFiles.length = s.current + 1) ∧
    (∀ x ∈ (handleBatchFileUpload ms parse).getLast?, x.current = x.total) := by
  rcases parse with ⟨msg, r0⟩ | rs
  · refine ⟨?_, ?_, ?_⟩ <;>
      simp [handleBatchFileUpload, initialBatchState, parsingState, List.chain'_cons]
  · by_cases hne : rs = []
    · subst hne
      refine ⟨?_, ?_, ?_⟩ <;>
        simp [handleBatchFileUpload, initialBatchState, parsingState, List.chain'_cons]
    · have htr := runRowsAux_trace ms rs 0 (batchStartState rs.length) 0 ""
        (le_refl 0) rfl
      have hs := runRowsAux_spec ms rs 0 (batchStartState rs.length) 0 ""
      have ht := batchTermState_fields rs.length
        (runRowsAux ms rs 0 (batchStartState rs.length) 0 "").2.1
        (runRowsAux ms rs 0 (batchStartState rs.length) 0 "").2.2.1
        (runRowsAux ms rs 0 (batchStartState rs.length) 0 "").2.2.2
      have hTermCur : (batchTermState rs.length
          (runRowsAux ms rs 0 (batchStartState rs.length) 0 "").2.1
          (runRowsAux ms rs 0 (batchStartState rs.length) 0 "").2.2.1
          (runRowsAux ms rs 0 (batchStartState rs.length) 0 "").2.2.2).current
          = rs.length := ht.2.1
      have hTermLen : (batchTermState rs.length
          (runRowsAux ms rs 0 (batchStartState rs.length) 0 "").2.1
          (runRowsAux ms rs 0 (batchStartState rs.length) 0 "").2.2.1
          (runRowsAux ms rs 0 (batchStartState rs.length) 0 "").2.2.2).generatedFiles.length
          = rs.length := by
        rw [ht.1, hs.2.2.1]
        simp [batchStartState, parsingState, expectedFiles_length]
      have hTermTot : (batchTermState rs.length
          (runRowsAux ms rs 0 (batchStartState rs.length) 0 "").2.1
          (runRowsAux ms rs 0 (batchStartState rs.length) 0 "").2.2.1
          (runRowsAux ms rs 0 (batchStartState rs.length) 0 "").2.2.2).total
          = rs.length := by
        rw [ht.2.2.1, hs.1]
        rfl
      rw [handleBatch_rows_eq ms rs hne]
      refine ⟨?_, ?_, ?_⟩
      · -- chain
        have hsh : initialBatchState :: parsingState :: batchStartState rs.length
              :: ((runRowsAux ms rs 0 (batchStartState rs.length) 0 "").1
                  ++ [batchTermState rs.length
                       (runRowsAux ms rs 0 (batchStartState rs.length) 0 "").2.1
                       (runRowsAux ms rs 0 (batchStartState rs.length) 0 "").2.2.1
                       (runRowsAux ms rs 0 (batchStartState rs.length) 0 "").2.2.2])
            = (initialBatchState :: parsingState :: batchStartState rs.length
                :: (runRowsAux ms rs 0 (batchStartState rs.length) 0 "").1)
              ++ [batchTermState rs.length
                   (runRowsAux ms rs 0 (batchStartState rs.length) 0 "").2.1
                   (runRowsAux ms rs 0 (batchStartState rs.length) 0 "").2.2.1
                   (runRowsAux ms rs 0 (batchStartState rs.length) 0 "").2.2.2] := by
          simp
        rw [hsh, List.chain'_append]
        refine ⟨?_, List.chain'_singleton _, ?_⟩
        · rw [List.chain'_cons]
          refine ⟨le_refl 0, ?_⟩
          rw [List.chain'_cons]
          exact ⟨le_refl 0, htr.1⟩
        · intro x hx y hy
          have hy2 : batchTermState rs.length
              (runRowsAux ms rs 0 (batchStartState rs.length) 0 "").2.1
              (runRowsAux ms rs 0 (batchStartState rs.length) 0 "").2.2.1
              (runRowsAux ms rs 0 (batchStartState rs.length) 0 "").2.2.2 = y := by
            simpa using hy
          subst hy2
          rw [hTermCur]
          obtain ⟨hlast, hxeq⟩ := List.mem_getLast?_eq_getLast hx
          have hmem : x ∈ initialBatchState :: parsingState :: batchStartState rs.length
              :: (runRowsAux ms rs 0 (batchStartState rs.length) 0 "").1 := by
            rw [hxeq]
            exact List.getLast_mem hlast
          rcases List.mem_cons.mp hmem with rfl | hmem2
          · exact Nat.zero_le _
          rcases List.mem_cons.mp hmem2 with rfl | hmem3
          · exact Nat.zero_le _
          rcases List.mem_cons.mp hmem3 with rfl | hmem4
          · exact Nat.zero_le _
          · have := (htr.2.1 x hmem4).2.1
            simp at this
            omega
      · -- length-current relation for every state
        intro s hsmem
        rcases List.mem_cons.mp hsmem with rfl | h2
        · exact Or.inl rfl
        rcases List.mem_cons.mp h2 with rfl | h3
        · exact Or.inl rfl
        rcases List.mem_cons.mp h3 with rfl | h4
        · exact Or.inl rfl
        rcases List.mem_append.mp h4 with h5 | h5
        · exact (htr.2.1 s h5).1
        · have hseq : s = batchTermState rs.length
              (runRowsAux ms rs 0 (batchStartState rs.length) 0 "").2.1
              (runRowsAux ms rs 0 (batchStartState rs.length) 0 "").2.2.1
              (runRowsAux ms rs 0 (batchStartState rs.length) 0 "").2.2.2 := by
            simpa using h5
          subst hseq
          exact Or.inl (by rw [hTermLen, hTermCur])
      · -- last state: current = total
        intro x hx
        rw [← handleBatch_rows_eq ms rs hne] at hx
        rw [handleBatch_rows_getLast ms rs hne] at hx
        have hxeq : batchTermState rs.length
            (runRowsAux ms rs 0 (batchStartState rs.length) 0 "").2.1
            (runRowsAux ms rs 0 (batchStartState rs.length) 0 "").2.2.1
            (runRowsAux ms rs 0 (batchStartState rs.length) 0 "").2.2.2 = x := by
          simpa using hx
        subst hxeq
        rw [hTermCur, hTermTot]

/-- C2, counterexample: in a successful one-row batch run, the state
published by the row's append (observation point 4) has `current = 0` but
`generatedFiles.length = 1`, refuting `generatedFiles.length == current` at
every observation point after processing starts. -/
theorem batch_length_current_counterexample :
    ((handleBatchFileUpload "" (.rows
        [({ filename := some "hero", width := some "64", height := some "64",
            prompt := some "a stoic hero" }, ⟨.ok "img", []⟩)])).get? 4).map
      (fun s => (s.current, s.generatedFiles.length)) = some (0, 1) := rfl

/-- C2, witness: the invariants applied to a concrete parse-error run, with
the membership hypotheses discharged by evaluation. -/
theorem batch_progress_invariants_witness :
    List.Chain' (fun a b : BatchState => a.current ≤ b.current)
      (handleBatchFileUpload "" (.parseError "bad" 0)) ∧
    (initialBatchState.generatedFiles.length = initialBatchState.current ∨
      initialBatchState.generatedFiles.length = initialBatchState.current + 1) ∧
    ((⟨0, 0, .error, [], none, some "CSV Parse Error: bad on row 2."⟩ : BatchState).current
      = (⟨0, 0, .error, [], none, some "CSV Parse Error: bad on row 2."⟩ : BatchState).total) :=
  ⟨(batch_progress_invariants "" (.parseError "bad" 0)).1,
   (batch_progress_invariants "" (.parseError "bad" 0)).2.1 initialBatchState (by decide),
   (batch_progress_invariants "" (.parseError "bad" 0)).2.2
     ⟨0, 0, .error, [], none, some "CSV Parse Error: bad on row 2."⟩ (by rfl)⟩

/-- C3, counterexample: for an empty row set the published status sequence
is `idle, processing, error` — the job passes through `processing` (the
pre-parse `Parsing CSV...` state of line 120), refuting the claim that it
never takes the value `processing`. -/
theorem batch_processing_counterexample :
    (handleBatchFileUpload "" (.rows [])).map (fun s => s.status)
      = [.idle, .processing, .error] := rfl

/-- C3, amended: for an empty or unparseable input row set the status
sequence is exactly `idle, processing, error` — one `processing` state is
published at upload, before parsing — and `total` is never set to a
non-zero value, no file is ever produced, and the job never reaches
`done`. -/
theorem batch_invalid_input_trace (ms : String) (parse : ParseOutcome)
    (hinv : (∃ m r0, parse = ParseOutcome.parseError m r0) ∨ parse = .rows []) :
    (handleBatchFileUpload ms parse).map (fun s => s.status)
      = [.idle, .processing, .error] ∧
    (∀ s ∈ handleBatchFileUpload ms parse, s.total = 0 ∧ s.generatedFiles = []) ∧
    (∀ s ∈ handleBatchFileUpload ms parse, s.status ≠ .done) := by
  rcases hinv with ⟨m, r0, rfl⟩ | rfl <;>
    refine ⟨rfl, ?_, ?_⟩ <;>
    simp [handleBatchFileUpload, initialBatchState, parsingState]

/-- C3, witness: the amended theorem applied to the empty row set. -/
theorem batch_invalid_input_trace_witness :
    ((handleBatchFileUpload "" (.rows [])).map (fun s => s.status)
      = [.idle, .processing, .error]) ∧
    (∀ s ∈ handleBatchFileUpload "" (.rows []), s.total = 0 ∧ s.generatedFiles = []) ∧
    (∀ s ∈ handleBatchFileUpload "" (.rows []), s.status ≠ .done) :=
  batch_invalid_input_trace "" (.rows []) (Or.inr rfl)

/-- C4, witness: a concrete two-row batch (second row fails validation with
width 0) ends with 2 files, `current = total = 2` and status `error`. -/
theorem batch_completion_spec_witness :
    ∃ fin, (handleBatchFileUpload "" (.rows
        [({ filename := some "hero", width := some "64", height := some "64",
            prompt := some "a stoic hero" }, ⟨.ok "img", []⟩),
         ({ filename := some "villain", width := some "0", height := some "64",
            prompt := some "a villain" }, ⟨.ok "unused", []⟩)])).getLast? = some fin ∧
      fin.generatedFiles = expectedFiles "" 0
        [({ filename := some "hero", width := some "64", height := some "64",
            prompt := some "a stoic hero" }, ⟨.ok "img", []⟩),
         ({ filename := some "villain", width := some "0", height := some "64",
            prompt := some "a villain" }, ⟨.ok "unused", []⟩)] ∧
      fin.generatedFiles.length = 2 ∧
      fin.current = 2 ∧
      fin.total = 2 ∧
      fin.status = (if countFails "" 0
        [({ filename := some "hero", width := some "64", height := some "64",
            prompt := some "a stoic hero" }, ⟨.ok "img", []⟩),
         ({ filename := some "villain", width := some "0", height := some "64",
            prompt := some "a villain" }, ⟨.ok "unused", []⟩)] = 0
        then BatchStatus.done else BatchStatus.error) :=
  batch_completion_spec ""
    [({ filename := some "hero", width := some "64", height := some "64",
        prompt := some "a stoic hero" }, ⟨.ok "img", []⟩),
     ({ filename := some "villain", width := some "0", height := some "64",
        prompt := some "a villain" }, ⟨.ok "unused", []⟩)] (by simp)
